import Mathlib

set_option maxRecDepth 8000

/-!
# Verification of the anitube playlist/extraction core

Shallow embedding of the core components of the `aniloader` package
(playlist structure inference, content-type classification, voice/player/
episode resolution, player-config URL extraction, quality selection and
filename generation), together with proofs of the specified properties.

Python strings are modelled as `List Char` (a Python `str` is a sequence of
Unicode code points); byte strings as `List Nat` with every element `< 256`.
-/

namespace Aniloader

/-! ## Python string primitives

`pyStartsWith`, `pyContains`, `pySplitUnd`, `pyUpper` model `str.startswith`,
the `in` substring operator, `str.split("_")` and `str.upper` respectively.
`pyUpper` implements the case mapping on the alphabets actually occurring in
the program's keyword sets and page labels: ASCII letters and the Ukrainian
Cyrillic letters (`а`–`я`, `є`, `і`, `ї`, `ґ`); all other code points are
fixed, exactly as `str.upper` fixes them. -/

/-- `s.startswith(p)`: `p` is a leading run of `s`. -/
def pyStartsWith : List Char → List Char → Bool
  | _, [] => true
  | [], _ :: _ => false
  | c :: cs, p :: ps => c == p && pyStartsWith cs ps

/-- `needle in hay` (Python substring containment). -/
def pyContains (hay needle : List Char) : Bool :=
  if pyStartsWith hay needle then true
  else
    match hay with
    | [] => false
    | _ :: t => pyContains t needle

/-- `s.split("_")`: pieces between underscores; never empty as a list. -/
def pySplitUnd : List Char → List (List Char)
  | [] => [[]]
  | '_' :: rest => [] :: pySplitUnd rest
  | c :: rest =>
    match pySplitUnd rest with
    | [] => [[c]]
    | s :: ss => (c :: s) :: ss

/-- Uppercase one code point (`str.upper`, restricted to the alphabets in
scope: ASCII and Ukrainian Cyrillic). -/
def pyUpperChar (c : Char) : Char :=
  let n := c.toNat
  if 0x61 ≤ n ∧ n ≤ 0x7A then Char.ofNat (n - 0x20)        -- a-z
  else if 0x430 ≤ n ∧ n ≤ 0x44F then Char.ofNat (n - 0x20) -- а-я
  else if n = 0x454 then Char.ofNat 0x404                  -- є
  else if n = 0x456 then Char.ofNat 0x406                  -- і
  else if n = 0x457 then Char.ofNat 0x407                  -- ї
  else if n = 0x491 then Char.ofNat 0x490                  -- ґ
  else c

/-- `s.upper()`. -/
def pyUpper (s : List Char) : List Char := s.map pyUpperChar

/-- `s.rstrip("/")`: remove every trailing `/`. -/
def pyRstripSlash (s : List Char) : List Char :=
  (s.reverse.dropWhile (· == '/')).reverse

/-! ## Data model (`models.py`) -/

/-- A voice/player playlist item as produced by
`HTMLParser.parse_voice_items`: `{"id": ..., "name": ..., "parts_count": ...}`. -/
structure PlItem where
  id : List Char
  name : List Char
  partsCount : Nat
  deriving Repr, DecidableEq

/-- `models.Voice`. -/
structure Voice where
  id : List Char
  name : List Char
  deriving Repr, DecidableEq

/-- `models.Player`. -/
structure Player where
  id : List Char
  name : List Char
  deriving Repr, DecidableEq

/-- `models.Episode` (the `m3u8_url` field is set by a later stage and is
not needed for the resolution claims). -/
structure Episode where
  number : Nat
  dataId : List Char
  dataFile : List Char
  deriving Repr, DecidableEq

/-! ## Content-type classifier (`parsing/content_detector.py`) -/

/-- Label carries an explicit movie marker (`"ФІЛЬМ"/"FILM"`); computed by
the detector but not used by its decision. -/
def hasMovieKeyword (text : List Char) : Bool :=
  pyContains (pyUpper text) "ФІЛЬМ".data || pyContains (pyUpper text) "FILM".data

/-- Label carries an explicit series marker (`"СЕРІЯ"/"EPISODE"/"ЕПІЗОД"`). -/
def hasSeriesKeyword (text : List Char) : Bool :=
  pyContains (pyUpper text) "СЕРІЯ".data || pyContains (pyUpper text) "EPISODE".data
    || pyContains (pyUpper text) "ЕПІЗОД".data

/-- `ContentTypeDetector.detect_is_movie`.  The Python code first forms
`set(episode_texts)`; since only `any(...)` over the set is taken, the
deduplication is modelled by `List.dedup`. -/
def detectIsMovie (episodeTexts : List (List Char))
    (uniqueFilesCount totalItemsCount : Nat) : Bool :=
  let uniqueTexts := episodeTexts.dedup
  let hasSeriesLabel := uniqueTexts.any hasSeriesKeyword
  let hasMultipleEpisodes := uniqueFilesCount > totalItemsCount
  if hasSeriesLabel then false
  else if hasMultipleEpisodes then false
  else true

/-! ## Identifier-path model (`parsing/html_parser.py`) -/

/-- Segment depth of an id: `len(data_id.split("_"))`. -/
def depthOf (id : List Char) : Nat := (pySplitUnd id).length

/-- `HTMLParser.get_max_depth`: greatest `parts_count`, `0` on empty input. -/
def getMaxDepth (items : List PlItem) : Nat :=
  (items.map PlItem.partsCount).foldr max 0

/-- `HTMLParser.filter_items_by_parent`: keep items whose id starts with
`parent_id + "_"` and whose stored depth is `len(parent_id.split("_")) + 1`. -/
def filterItemsByParent (items : List PlItem) (parentId : List Char) : List PlItem :=
  let targetDepth := (pySplitUnd parentId).length + 1
  items.filter fun it =>
    pyStartsWith it.id (parentId ++ ['_']) && it.partsCount == targetDepth

/-! ## Voice/player resolver (`parsing/voice_extractor.py`) -/

/-- Label matches the "player" keyword set (`"ПЛЕЄР"`/`"PLAYER"`,
case-insensitively). -/
def isPlayerLabel (name : List Char) : Bool :=
  pyContains (pyUpper name) "ПЛЕЄР".data || pyContains (pyUpper name) "PLAYER".data

/-- `VoiceExtractor.CATEGORY_KEYWORDS`. -/
def categoryKeywords : List (List Char) :=
  ["ОЗВУЧЕННЯ".data, "СУБТИТРИ".data, "DUBBING".data, "SUBTITLES".data,
   "УКРАЇНСЬКОЮ".data, "RUSSIAN".data, "ENGLISH".data]

/-- Label matches a category/section keyword. -/
def isCategoryLabel (name : List Char) : Bool :=
  categoryKeywords.any fun kw => pyContains (pyUpper name) kw

/-- All items carry the player keyword ("flat" shape test, shared by the
voice and episode extractors). -/
def allHavePlayerKeyword (items : List PlItem) : Bool :=
  items.all fun it => isPlayerLabel it.name

/-- One playlist item as a `Voice`. -/
def mkVoice (it : PlItem) : Voice := ⟨it.id, it.name⟩

/-- Loop body of `VoiceExtractor._extract_voices_for_series` (nested shape):
skip players, category headers, and items at max depth when `max_depth > 2`. -/
def seriesVoicesNested (items : List PlItem) (maxDepth : Nat) : List Voice :=
  match items with
  | [] => []
  | it :: rest =>
    let isPlayer := isPlayerLabel it.name
    let isMaxDepth := it.partsCount == maxDepth
    let isCategory := isCategoryLabel it.name
    if isPlayer || (isMaxDepth && decide (maxDepth > 2)) || isCategory then
      seriesVoicesNested rest maxDepth
    else
      mkVoice it :: seriesVoicesNested rest maxDepth

/-- `VoiceExtractor._extract_voices_for_series`. -/
def extractVoicesForSeries (items : List PlItem) (maxDepth : Nat) : List Voice :=
  if allHavePlayerKeyword items then items.map mkVoice
  else seriesVoicesNested items maxDepth

/-- Loop body of `VoiceExtractor._extract_voices_for_movie` (nested shape). -/
def movieVoicesNested (items : List PlItem) (maxDepth : Nat) : List Voice :=
  match items with
  | [] => []
  | it :: rest =>
    if !isPlayerLabel it.name && decide (it.partsCount < maxDepth) then
      mkVoice it :: movieVoicesNested rest maxDepth
    else movieVoicesNested rest maxDepth

/-- `VoiceExtractor._extract_voices_for_movie`. -/
def extractVoicesForMovie (items : List PlItem) (maxDepth : Nat) : List Voice :=
  if allHavePlayerKeyword items then items.map mkVoice
  else movieVoicesNested items maxDepth

/-- `VoiceExtractor.extract_voices`. -/
def extractVoices (items : List PlItem) (isMovie : Bool) (maxDepth : Nat) :
    List Voice :=
  if isMovie then extractVoicesForMovie items maxDepth
  else extractVoicesForSeries items maxDepth

/-- `VoiceExtractor.extract_players_for_voice`: items whose id starts with
`voice_id + "_"` at depth `len(voice_id.split("_")) + 1`. -/
def extractPlayersForVoice (items : List PlItem) (voiceId : List Char) :
    List Player :=
  let playerDepth := (pySplitUnd voiceId).length + 1
  (items.filter fun it =>
      pyStartsWith it.id (voiceId ++ ['_']) && it.partsCount == playerDepth).map
    fun it => ⟨it.id, it.name⟩

/-! ## Episode items (`HTMLParser.parse_episode_items`) -/

/-- A raw `<li>` of the `.playlists-videos` block: its `data-id` and
`data-file` attributes (absent attribute = empty string, as `item.get`
defaults to `""`). -/
structure DomLi where
  dataId : List Char
  dataFile : List Char
  deriving Repr, DecidableEq

/-- An episode dictionary, as consumed by `EpisodeExtractor`: the `number`
key is present on items produced by `parse_episode_items` and may be absent
otherwise (`item.get("number", idx)`). -/
structure EpItem where
  dataId : List Char
  dataFile : List Char
  number : Option Nat
  deriving Repr, DecidableEq

/-- Loop of `HTMLParser.parse_episode_items`: skip items with an empty id or
file, keep those whose id starts with the given filter id, numbering the kept
items `1, 2, 3, ...`. -/
def parseEpisodeItemsLoop (lis : List DomLi) (pid : List Char) (n : Nat) :
    List EpItem :=
  match lis with
  | [] => []
  | li :: rest =>
    if li.dataId = [] || li.dataFile = [] then parseEpisodeItemsLoop rest pid n
    else if !pyStartsWith li.dataId pid then parseEpisodeItemsLoop rest pid n
    else ⟨li.dataId, li.dataFile, some n⟩ :: parseEpisodeItemsLoop rest pid (n + 1)

/-- `HTMLParser.parse_episode_items` (episode numbering starts at 1). -/
def parseEpisodeItems (lis : List DomLi) (pid : List Char) : List EpItem :=
  parseEpisodeItemsLoop lis pid 1

/-! ## Episode resolver (`parsing/episode_extractor.py`) -/

/-- Python truthiness of the optional `player_id` / `voice_id` strings
(`None` and `""` are both falsy). -/
def pyTruthy : Option (List Char) → Bool
  | none => false
  | some s => !s.isEmpty

/-- `"_".join(parts)`. -/
def pyJoinUnd (parts : List (List Char)) : List Char :=
  match parts with
  | [] => []
  | p :: ps => p ++ (ps.map (fun q => '_' :: q)).foldr (· ++ ·) []

/-- The `for`-loop of `_extract_series_episodes` that auto-selects the first
player under the voice: the first item whose id starts with `voice_id` and
has at least `voice_depth + 1` segments yields `"_".join(parts[:player_depth])`. -/
def firstPlayerUnder (episodeItems : List EpItem) (voiceId : List Char) :
    Option (List Char) :=
  let playerDepth := (pySplitUnd voiceId).length + 1
  (episodeItems.find? fun it =>
      pyStartsWith it.dataId voiceId
        && decide ((pySplitUnd it.dataId).length ≥ playerDepth)).map
    fun it => pyJoinUnd ((pySplitUnd it.dataId).take playerDepth)

/-- Episode-collecting loop of `_extract_series_episodes`
(`for idx, item in enumerate(episode_items, 1)`): drop items with an empty
`data_file`, drop items not under the (truthy) selected player, and number
each kept item by its `number` key when present, else by `idx`. -/
def seriesEpisodesLoop (items : List EpItem) (idx : Nat)
    (playerId : Option (List Char)) : List Episode :=
  match items with
  | [] => []
  | it :: rest =>
    if it.dataFile = [] then seriesEpisodesLoop rest (idx + 1) playerId
    else if pyTruthy playerId
        && !pyStartsWith it.dataId (playerId.getD []) then
      seriesEpisodesLoop rest (idx + 1) playerId
    else
      ⟨it.number.getD idx, it.dataId, it.dataFile⟩
        :: seriesEpisodesLoop rest (idx + 1) playerId

/-- `EpisodeExtractor._extract_series_episodes`. -/
def extractSeriesEpisodes (episodeItems : List EpItem) (voiceId : List Char)
    (playerId : Option (List Char)) : List Episode :=
  let hasDirectEpisodes := episodeItems.any fun it => it.dataId == voiceId
  let resolved : Option (List Char) :=
    if hasDirectEpisodes && !pyTruthy playerId then some voiceId
    else if !pyTruthy playerId && !voiceId.isEmpty then
      match firstPlayerUnder episodeItems voiceId with
      | some p => some p
      | none => playerId
    else playerId
  seriesEpisodesLoop episodeItems 1 resolved

/-- Loop of `_extract_movie_episodes`, flat shape: exact-id match against the
(truthy) voice id, every match becomes episode #1. -/
def movieEpisodesFlatLoop (items : List EpItem) (voiceId : List Char) :
    List Episode :=
  match items with
  | [] => []
  | it :: rest =>
    if it.dataFile = [] then movieEpisodesFlatLoop rest voiceId
    else if !voiceId.isEmpty && it.dataId != voiceId then
      movieEpisodesFlatLoop rest voiceId
    else ⟨1, it.dataId, it.dataFile⟩ :: movieEpisodesFlatLoop rest voiceId

/-- Loop of `_extract_movie_episodes`, nested shape: id-prefix match against
the (truthy) voice id and the (truthy) optional player id. -/
def movieEpisodesNestedLoop (items : List EpItem) (voiceId : List Char)
    (playerId : Option (List Char)) : List Episode :=
  match items with
  | [] => []
  | it :: rest =>
    if it.dataFile = [] then movieEpisodesNestedLoop rest voiceId playerId
    else if !voiceId.isEmpty && !pyStartsWith it.dataId voiceId then
      movieEpisodesNestedLoop rest voiceId playerId
    else if pyTruthy playerId
        && !pyStartsWith it.dataId (playerId.getD []) then
      movieEpisodesNestedLoop rest voiceId playerId
    else ⟨1, it.dataId, it.dataFile⟩ :: movieEpisodesNestedLoop rest voiceId playerId

/-- `EpisodeExtractor._extract_movie_episodes`. -/
def extractMovieEpisodes (episodeItems : List EpItem) (voiceId : List Char)
    (playerId : Option (List Char)) (allItems : List PlItem) : List Episode :=
  if allHavePlayerKeyword allItems then movieEpisodesFlatLoop episodeItems voiceId
  else movieEpisodesNestedLoop episodeItems voiceId playerId

/-- `EpisodeExtractor.extract_episodes`. -/
def extractEpisodes (episodeItems : List EpItem) (voiceId : List Char)
    (playerId : Option (List Char)) (isMovie : Bool) (allItems : List PlItem) :
    List Episode :=
  if isMovie then extractMovieEpisodes episodeItems voiceId playerId allItems
  else extractSeriesEpisodes episodeItems voiceId playerId

/-- The series path of `AnitubeScraper.fetch_playlist`: episode items are
parsed with the *voice* id as the parser's filter argument, then handed to
the series episode extractor with the selected player id. -/
def fetchSeriesEpisodes (lis : List DomLi) (voiceId : List Char)
    (playerId : Option (List Char)) : List Episode :=
  extractSeriesEpisodes (parseEpisodeItems lis voiceId) voiceId playerId

/-! ## Theorems: playlist structure inference -/

/-- The four-item nested-shape example of the spec. -/
def nestedExampleItems : List PlItem :=
  [⟨"0_0".data, "Tonis".data, 2⟩, ⟨"0_0_0".data, "Player ASHDI".data, 3⟩,
   ⟨"0_1".data, "QTV".data, 2⟩, ⟨"0_1_0".data, "Player Moon".data, 3⟩]

/-- The eligibility test of the claim: no player keyword, no category
keyword, and not at max depth when `max_depth > 2`. -/
def seriesVoiceEligible (maxDepth : Nat) (it : PlItem) : Bool :=
  !isPlayerLabel it.name && !isCategoryLabel it.name
    && !(it.partsCount == maxDepth && decide (maxDepth > 2))

theorem seriesVoicesNested_eq_filter (items : List PlItem) (maxDepth : Nat) :
    seriesVoicesNested items maxDepth =
      (items.filter (seriesVoiceEligible maxDepth)).map mkVoice := by
  induction items with
  | nil => rfl
  | cons it rest ih =>
    simp only [seriesVoicesNested, List.filter_cons, seriesVoiceEligible]
    by_cases hp : isPlayerLabel it.name <;>
      by_cases hc : isCategoryLabel it.name <;>
        by_cases hm : (it.partsCount == maxDepth && decide (maxDepth > 2)) = true <;>
      simp [hp, hc, hm, ih]

/-- C1: in the nested (not all-player-labelled) shape, the series voice
resolver returns exactly the items without a player keyword, without a
category keyword, and not at max depth when `max_depth > 2` (items at max
depth stay eligible when `max_depth ≤ 2`), in input order; on the four-item
example with `max_depth = 3` it returns `[Tonis, QTV]`. -/
theorem series_voice_resolver_nested_spec :
    (∀ (items : List PlItem) (maxDepth : Nat),
        allHavePlayerKeyword items = false →
          extractVoicesForSeries items maxDepth =
            (items.filter (seriesVoiceEligible maxDepth)).map mkVoice)
    ∧ (∀ (it : PlItem), it.partsCount = 2 →
        seriesVoiceEligible 2 it = (!isPlayerLabel it.name && !isCategoryLabel it.name))
    ∧ extractVoicesForSeries nestedExampleItems 3 =
        [⟨"0_0".data, "Tonis".data⟩, ⟨"0_1".data, "QTV".data⟩] := by
  refine ⟨fun items maxDepth h => ?_, fun it h2 => ?_, by decide⟩
  · rw [extractVoicesForSeries, h]
    simp only [Bool.false_eq_true, if_false]
    exact seriesVoicesNested_eq_filter items maxDepth
  · simp [seriesVoiceEligible, h2]

/-- Witness for `series_voice_resolver_nested_spec`: its general part applied
to the spec's four-item example. -/
theorem series_voice_resolver_nested_spec_witness :
    allHavePlayerKeyword nestedExampleItems = false ∧
      extractVoicesForSeries nestedExampleItems 3 =
        (nestedExampleItems.filter (seriesVoiceEligible 3)).map mkVoice :=
  ⟨by decide, series_voice_resolver_nested_spec.1 nestedExampleItems 3 (by decide)⟩

/-- C3: id depth is the number of `_`-separated segments, and child filtering
keeps exactly the items whose id extends the parent id by the separator and
whose depth is the parent's plus one — segment-aware, so `"0_10"` is not a
child of `"0_1"` (both for `filter_items_by_parent` and for
`extract_players_for_voice`). -/
theorem identifier_path_child_filter_spec :
    (∀ id : List Char, depthOf id = (pySplitUnd id).length)
    ∧ (∀ (items : List PlItem) (parentId : List Char),
        (∀ it ∈ items, it.partsCount = depthOf it.id) →
          filterItemsByParent items parentId =
            items.filter fun it =>
              pyStartsWith it.id (parentId ++ ['_'])
                && depthOf it.id == depthOf parentId + 1)
    ∧ (∀ (items : List PlItem) (voiceId : List Char),
        (∀ it ∈ items, it.partsCount = depthOf it.id) →
          extractPlayersForVoice items voiceId =
            (items.filter fun it =>
              pyStartsWith it.id (voiceId ++ ['_'])
                && depthOf it.id == depthOf voiceId + 1).map fun it => ⟨it.id, it.name⟩)
    ∧ filterItemsByParent [⟨"0_10".data, "b".data, 2⟩] "0_1".data = [] := by
  refine ⟨fun _ => rfl, fun items parentId h => ?_, fun items voiceId h => ?_, by decide⟩
  · exact List.filter_congr fun it hit => by rw [h it hit]; rfl
  · rw [extractPlayersForVoice]
    exact congrArg _ (List.filter_congr fun it hit => by rw [h it hit]; rfl)

/-- Witness for `identifier_path_child_filter_spec`: the child filter on a
three-item list under parent `"0_1"`. -/
theorem identifier_path_child_filter_spec_witness :
    filterItemsByParent
        [⟨"0_1_0".data, "a".data, 3⟩, ⟨"0_10".data, "b".data, 2⟩,
         ⟨"0_1".data, "c".data, 2⟩] "0_1".data =
      [⟨"0_1_0".data, "a".data, 3⟩] := by
  have h := identifier_path_child_filter_spec.2.1
    [⟨"0_1_0".data, "a".data, 3⟩, ⟨"0_10".data, "b".data, 2⟩,
     ⟨"0_1".data, "c".data, 2⟩] "0_1".data (by decide)
  rw [h]; decide

/-- C4: the classifier returns Series iff a label carries a series keyword or
the distinct-source count exceeds the top-level item count, in that order;
ties yield Movie, and a movie label never overrides a series label. -/
theorem content_classifier_spec :
    (∀ (texts : List (List Char)) (u t : Nat),
        (detectIsMovie texts u t = false ↔ texts.any hasSeriesKeyword = true ∨ u > t))
    ∧ detectIsMovie ["1 episode".data, "2 episode".data] 2 1 = false
    ∧ detectIsMovie ["movie".data] 1 1 = true
    ∧ detectIsMovie [] 5 2 = false
    ∧ detectIsMovie ["movie".data] 2 2 = true
    ∧ detectIsMovie ["ФІЛЬМ".data, "1 СЕРІЯ".data] 1 1 = false := by
  refine ⟨fun texts u t => ?_, by decide, by decide, by decide, by decide, by decide⟩
  have hdedup : texts.dedup.any hasSeriesKeyword = texts.any hasSeriesKeyword := by
    rw [Bool.eq_iff_iff]
    simp only [List.any_eq_true, List.mem_dedup]
  unfold detectIsMovie
  simp only [hdedup]
  split_ifs with h1 h2 <;> simp_all

theorem movieEpisodesFlatLoop_dataFile_ne (items : List EpItem) (voiceId : List Char) :
    ∀ e ∈ movieEpisodesFlatLoop items voiceId, e.dataFile ≠ [] := by
  induction items with
  | nil => simp [movieEpisodesFlatLoop]
  | cons it rest ih =>
    rw [movieEpisodesFlatLoop]
    split_ifs with h1 h2
    · exact ih
    · exact ih
    · intro e he
      rcases List.mem_cons.mp he with he | he
      · simp [he, h1]
      · exact ih e he

theorem movieEpisodesNestedLoop_dataFile_ne (items : List EpItem)
    (voiceId : List Char) (playerId : Option (List Char)) :
    ∀ e ∈ movieEpisodesNestedLoop items voiceId playerId, e.dataFile ≠ [] := by
  induction items with
  | nil => simp [movieEpisodesNestedLoop]
  | cons it rest ih =>
    rw [movieEpisodesNestedLoop]
    split_ifs with h1 h2 h3
    · exact ih
    · exact ih
    · exact ih
    · intro e he
      rcases List.mem_cons.mp he with he | he
      · simp [he, h1]
      · exact ih e he

theorem seriesEpisodesLoop_dataFile_ne (items : List EpItem) (idx : Nat)
    (playerId : Option (List Char)) :
    ∀ e ∈ seriesEpisodesLoop items idx playerId, e.dataFile ≠ [] := by
  induction items generalizing idx with
  | nil => simp [seriesEpisodesLoop]
  | cons it rest ih =>
    rw [seriesEpisodesLoop]
    split_ifs with h1 h2
    · exact ih _
    · exact ih _
    · intro e he
      rcases List.mem_cons.mp he with he | he
      · simp [he, h1]
      · exact ih _ e he

/-- C10: every episode returned by the episode resolver has a non-empty
source reference; items whose `data_file` is empty are silently dropped. -/
theorem episode_resolver_nonempty_source :
    ∀ (episodeItems : List EpItem) (voiceId : List Char)
      (playerId : Option (List Char)) (isMovie : Bool) (allItems : List PlItem),
      ∀ e ∈ extractEpisodes episodeItems voiceId playerId isMovie allItems,
        e.dataFile ≠ [] := by
  intro episodeItems voiceId playerId isMovie allItems e he
  rw [extractEpisodes] at he
  split_ifs at he with hm
  · rw [extractMovieEpisodes] at he
    split_ifs at he with hf
    · exact movieEpisodesFlatLoop_dataFile_ne _ _ e he
    · exact movieEpisodesNestedLoop_dataFile_ne _ _ _ e he
  · exact seriesEpisodesLoop_dataFile_ne _ _ _ e he

/-- Witness for `episode_resolver_nonempty_source` at a concrete resolution. -/
theorem episode_resolver_nonempty_source_witness :
    (⟨1, "0_0".data, "f".data⟩ : Episode) ∈
        extractEpisodes [⟨"0_0".data, "f".data, none⟩] "0_0".data none true
          [⟨"0_0".data, "ПЛЕЄР".data, 2⟩] ∧
      (⟨1, "0_0".data, "f".data⟩ : Episode).dataFile ≠ [] :=
  ⟨by decide,
   episode_resolver_nonempty_source [⟨"0_0".data, "f".data, none⟩] "0_0".data none
     true [⟨"0_0".data, "ПЛЕЄР".data, 2⟩] ⟨1, "0_0".data, "f".data⟩ (by decide)⟩

/-- The DOM episode list of the failing input for the series numbering
claim: one episode under player `0_0_0`, two under player `0_0_1`, all
under voice `0_0`. -/
def numberingFailingDom : List DomLi :=
  [⟨"0_0_0_0".data, "fA".data⟩, ⟨"0_0_1_0".data, "fB".data⟩,
   ⟨"0_0_1_1".data, "fC".data⟩]

/-- C2 (failing-input evaluation): resolving voice `0_0` with selected
player `0_0_1` over `numberingFailingDom` returns the two episodes of that
player in DOM order, but numbered `[2, 3]` — the `number` values assigned by
`parse_episode_items` are positions within the whole voice-filtered list,
not a per-player sequence starting at 1. -/
theorem series_numbering_not_sequential_from_one :
    fetchSeriesEpisodes numberingFailingDom "0_0".data (some "0_0_1".data) =
        [⟨2, "0_0_1_0".data, "fB".data⟩, ⟨3, "0_0_1_1".data, "fC".data⟩]
      ∧ (fetchSeriesEpisodes numberingFailingDom "0_0".data
            (some "0_0_1".data)).map Episode.number ≠ [1, 2] := by
  exact ⟨by decide, by decide⟩

/-! ## Quality selector (`extraction/quality_selector.py`) -/

/-- `\d` on ASCII input. -/
def isDigitCh (c : Char) : Bool := 48 ≤ c.toNat && c.toNat ≤ 57

/-- `int(...)` of a digit run. -/
def digitsToNat (ds : List Char) : Nat :=
  ds.foldl (fun a c => a * 10 + (c.toNat - 48)) 0

/-- A character the URL part of a quality segment may contain
(`[^,\[\]]`). -/
def isQualityUrlChar (c : Char) : Bool := !(c == ',' || c == '[' || c == ']')

/-- One match attempt of `\[(\d+)p\]([^,\[\]]+)` just after a `[`: digits
(greedy, at least one), the literal `p]`, then a non-empty greedy run of URL
characters.  Both `\d+` and `[^,\[\]]+` are followed by tokens their own
class excludes, so greedy maximal munch is exactly the regex backtracking
semantics here. -/
def qualityMatch (rest : List Char) : Option (Nat × List Char) :=
  let ds := rest.takeWhile isDigitCh
  if ds.isEmpty then none
  else
    match rest.dropWhile isDigitCh with
    | 'p' :: ']' :: r2 =>
      let url := r2.takeWhile isQualityUrlChar
      if url.isEmpty then none else some (digitsToNat ds, url)
    | _ => none

/-- `re.findall(r"\[(\d+)p\]([^,\[\]]+)", s)`: left-to-right non-overlapping
scan.  A match starts at `[` and contains no later `[` (digits, `p]` and the
URL class all exclude it), so `findall`'s continuation after a match visits
exactly the same match starts as this one-character advance. -/
def scanQualities : List Char → List (Nat × List Char)
  | [] => []
  | c :: rest =>
    if c == '[' then
      match qualityMatch rest with
      | some m => m :: scanQualities rest
      | none => scanQualities rest
    else scanQualities rest

/-- The first entry of `sorted(matches, key=int-of-quality, reverse=True)`:
Python's sort is stable and `reverse=True` keeps equal keys in input order,
so this is the first entry attaining the maximal quality value. -/
def pickBest (best : Nat × List Char) : List (Nat × List Char) → Nat × List Char
  | [] => best
  | x :: xs => if x.1 > best.1 then pickBest x xs else pickBest best xs

/-- `QualitySelector.select_best_quality`. -/
def selectBestQuality (s : List Char) : List Char :=
  if s.isEmpty then s
  else if !s.contains '[' || !s.contains ']' then s
  else
    match scanQualities s with
    | [] => s
    | m :: ms => pyRstripSlash (pickBest m ms).2

theorem pickBest_mem (m : Nat × List Char) (ms : List (Nat × List Char)) :
    pickBest m ms ∈ m :: ms := by
  induction ms generalizing m with
  | nil => simp [pickBest]
  | cons x xs ih =>
    rw [pickBest]
    split_ifs with h
    · rcases List.mem_cons.mp (ih x) with h' | h' <;> simp [h']
    · rcases List.mem_cons.mp (ih m) with h' | h' <;> simp [h']

theorem pickBest_max (m : Nat × List Char) (ms : List (Nat × List Char)) :
    ∀ x ∈ m :: ms, x.1 ≤ (pickBest m ms).1 := by
  induction ms generalizing m with
  | nil => simp [pickBest]
  | cons y ys ih =>
    intro x hx
    rw [pickBest]
    split_ifs with h
    · rcases List.mem_cons.mp hx with h' | h'
      · subst h'
        exact le_trans (le_of_lt h) (ih y y (by simp))
      · exact ih y x h'
    · rcases List.mem_cons.mp hx with h' | h'
      · exact ih m x (by simp [h'])
      · rcases List.mem_cons.mp h' with h'' | h''
        · subst h''
          exact le_trans (by omega) (ih m m (by simp))
        · exact ih m x (by simp [h''])

/-- C8: the quality selector returns the input unchanged when a bracket is
missing or when no `[digits p]url` segment is recognized, and otherwise
returns the URL of the first segment attaining the numerically greatest
quality value, with trailing slashes stripped; in particular
`"[360p]a,[720p]b,[1080p]c/"` yields `"c"` and `""` yields `""`. -/
theorem quality_selector_spec :
    (∀ s : List Char, s.contains '[' = false ∨ s.contains ']' = false →
        selectBestQuality s = s)
    ∧ (∀ s : List Char, scanQualities s = [] → selectBestQuality s = s)
    ∧ (∀ (s : List Char) (m : Nat × List Char) (ms : List (Nat × List Char)),
        s.contains '[' = true → s.contains ']' = true →
          scanQualities s = m :: ms →
            selectBestQuality s = pyRstripSlash (pickBest m ms).2
              ∧ pickBest m ms ∈ scanQualities s
              ∧ ∀ x ∈ scanQualities s, x.1 ≤ (pickBest m ms).1)
    ∧ selectBestQuality "[360p]a,[720p]b,[1080p]c/".data = "c".data
    ∧ selectBestQuality [] = []
    ∧ selectBestQuality "plain-url".data = "plain-url".data := by
  refine ⟨fun s h => ?_, fun s h => ?_, fun s m ms hb hb' h => ?_, by decide,
    by decide, by decide⟩
  · rw [selectBestQuality]
    split_ifs with h1 h2
    · rfl
    · rfl
    · exfalso
      rcases h with h | h
      · replace h : '[' ∉ s := by simpa using h
        simp [h] at h2
      · replace h : ']' ∉ s := by simpa using h
        simp [h] at h2
  · rw [selectBestQuality]
    split_ifs with h1 h2
    · rfl
    · rfl
    · rw [h]
  · refine ⟨?_, by rw [h]; exact pickBest_mem m ms,
      by rw [h]; exact pickBest_max m ms⟩
    rw [selectBestQuality]
    split_ifs with h1 h2
    · rw [List.isEmpty_iff] at h1; subst h1; simp at hb
    · replace hb : '[' ∈ s := by simpa using hb
      replace hb' : ']' ∈ s := by simpa using hb'
      simp [hb, hb'] at h2
    · rw [h]

/-- Witness for `quality_selector_spec`: the third conjunct applied to the
spec's three-segment example. -/
theorem quality_selector_spec_witness :
    scanQualities "[360p]a,[720p]b,[1080p]c/".data =
        [(360, "a".data), (720, "b".data), (1080, "c/".data)]
      ∧ selectBestQuality "[360p]a,[720p]b,[1080p]c/".data =
          pyRstripSlash (pickBest (360, "a".data)
            [(720, "b".data), (1080, "c/".data)]).2 :=
  ⟨by decide,
   (quality_selector_spec.2.2.1 "[360p]a,[720p]b,[1080p]c/".data (360, "a".data)
     [(720, "b".data), (1080, "c/".data)] (by decide) (by decide) (by decide)).1⟩

/-! ## Filenames and output paths
(`downloading/filename_generator.py`, `downloading/filesystem.py`) -/

/-- Python `\s` on the ASCII range (the only whitespace these strings
carry). -/
def isPySpace (c : Char) : Bool :=
  c == ' ' || c == '\t' || c == '\n' || c == '\r'
    || c == Char.ofNat 11 || c == Char.ofNat 12

/-- `s.replace(c, r)` for a single-character needle. -/
def pyReplace (s : List Char) (c : Char) (r : List Char) : List Char :=
  match s with
  | [] => []
  | x :: xs => if x == c then r ++ pyReplace xs c r else x :: pyReplace xs c r

/-- The replacement table of `sanitize_filename`, in insertion order. -/
def sanitizeReplacements : List (Char × List Char) :=
  [(':', " -".data), ('/', "-".data), ('\\', "-".data), ('|', "-".data),
   ('?', []), ('*', []), ('<', []), ('>', []), ('"', "'".data)]

/-- `s.strip(". ")`. -/
def pyStripDotSpace (s : List Char) : List Char :=
  ((s.dropWhile fun c => c == '.' || c == ' ').reverse.dropWhile
    fun c => c == '.' || c == ' ').reverse

/-- `re.sub(r"\s+", " ", s)`: each maximal whitespace run becomes one
space.  The flag records whether the scanner is inside a run. -/
def collapseWsAux : List Char → Bool → List Char
  | [], _ => []
  | c :: rest, inRun =>
    if isPySpace c then
      if inRun then collapseWsAux rest true else ' ' :: collapseWsAux rest true
    else c :: collapseWsAux rest false

/-- `re.sub(r"\s+", " ", s)`. -/
def collapseWs (s : List Char) : List Char := collapseWsAux s false

/-- `filesystem.sanitize_filename`. -/
def sanitizeFilename (s : List Char) : List Char :=
  collapseWs (pyStripDotSpace
    (sanitizeReplacements.foldl (fun acc p => pyReplace acc p.1 p.2) s))

/-- The fields of `models.Anime` consumed by the filename generator
(`season` and `is_movie` are attached to the object by the scraper). -/
structure AnimeM where
  titleEn : List Char
  year : Option Nat
  season : Nat
  isMovie : Bool
  deriving Repr, DecidableEq

/-- `{n:02d}` for a natural number. -/
def fmt02 (n : Nat) : List Char :=
  if n < 10 then '0' :: Nat.toDigits 10 n else Nat.toDigits 10 n

/-- The f-string of `FilenameGenerator.generate_episode_filename`, before
`sanitize_filename` is applied. -/
def rawEpisodeFilename (a : AnimeM) (episodeNumber : Nat) : List Char :=
  if a.isMovie then
    match a.year with
    | some y => a.titleEn ++ " (".data ++ Nat.toDigits 10 y ++ ").mp4".data
    | none => a.titleEn ++ ".mp4".data
  else
    a.titleEn ++ " S".data ++ fmt02 a.season ++ "E".data ++ fmt02 episodeNumber
      ++ ".mp4".data

/-- `FilenameGenerator.generate_episode_filename`. -/
def generateEpisodeFilename (a : AnimeM) (episodeNumber : Nat) : List Char :=
  sanitizeFilename (rawEpisodeFilename a episodeNumber)

/-- The folder name(s) of `FileSystemManager.create_output_directory`,
relative to the base directory and before sanitization: `[title (year)]`
(or `[title]`) for movies, `[title, Season SS]` for series. -/
def rawOutputDirComponents (a : AnimeM) : List (List Char) :=
  if a.isMovie then
    match a.year with
    | some y => [a.titleEn ++ " (".data ++ Nat.toDigits 10 y ++ ")".data]
    | none => [a.titleEn]
  else [a.titleEn, "Season ".data ++ fmt02 a.season]

/-- `FileSystemManager.create_output_directory`, relative components with
sanitization applied as in the code (`sanitize_filename` wraps the movie
folder name and the series name; the season folder is generated text). -/
def outputDirComponents (a : AnimeM) : List (List Char) :=
  if a.isMovie then
    match a.year with
    | some y => [sanitizeFilename (a.titleEn ++ " (".data ++ Nat.toDigits 10 y ++ ")".data)]
    | none => [sanitizeFilename a.titleEn]
  else [sanitizeFilename a.titleEn, "Season ".data ++ fmt02 a.season]

/-- `/`-joined relative path. -/
def joinPath (components : List (List Char)) : List Char :=
  match components with
  | [] => []
  | p :: ps => p ++ (ps.map (fun q => '/' :: q)).foldr (· ++ ·) []

/-- The full path of one downloaded episode relative to the base directory,
as composed by `DownloadOrchestrator.run` step 6/7:
`create_output_directory(anime, base) / generate_episode_filename(...)`. -/
def episodeRelPath (a : AnimeM) (episodeNumber : Nat) : List Char :=
  joinPath (outputDirComponents a ++ [generateEpisodeFilename a episodeNumber])

/-- Same composition without the excluded `sanitize_filename` step. -/
def rawEpisodeRelPath (a : AnimeM) (episodeNumber : Nat) : List Char :=
  joinPath (rawOutputDirComponents a ++ [rawEpisodeFilename a episodeNumber])

/-- C9 (counterexample): for a movie titled `A` from 2020, the composed
output path is `A (2020)/A (2020).mp4` — the movie file sits inside a
`{title} ({year})` folder — not the bare `A (2020).mp4` stated by the
claim. -/
theorem movie_path_has_folder_counterexample :
    episodeRelPath ⟨"A".data, some 2020, 1, true⟩ 1 = "A (2020)/A (2020).mp4".data
      ∧ episodeRelPath ⟨"A".data, some 2020, 1, true⟩ 1 ≠ "A (2020).mp4".data := by
  exact ⟨by decide, by decide⟩

/-- C9 (amended): relative to the base directory and up to the excluded
filename sanitization, a series episode's path is
`{title}/Season {season:02d}/{title} S{season:02d}E{number:02d}.mp4`, and a
movie's path is `{title} ({year})/{title} ({year}).mp4` when the year is
known and `{title}/{title}.mp4` otherwise (the movie filename additionally
sits inside a matching folder). -/
theorem episode_path_formulas (a : AnimeM) (n : Nat) :
    (a.isMovie = false →
        rawEpisodeRelPath a n =
          a.titleEn ++ "/Season ".data ++ fmt02 a.season ++ "/".data ++ a.titleEn
            ++ " S".data ++ fmt02 a.season ++ "E".data ++ fmt02 n ++ ".mp4".data)
    ∧ (∀ y, a.isMovie = true → a.year = some y →
        rawEpisodeRelPath a n =
          a.titleEn ++ " (".data ++ Nat.toDigits 10 y ++ ")".data ++ "/".data
            ++ a.titleEn ++ " (".data ++ Nat.toDigits 10 y ++ ").mp4".data)
    ∧ (a.isMovie = true → a.year = none →
        rawEpisodeRelPath a n = a.titleEn ++ "/".data ++ a.titleEn ++ ".mp4".data) := by
  refine ⟨fun hm => ?_, fun y hm hy => ?_, fun hm hy => ?_⟩
  · simp [rawEpisodeRelPath, rawOutputDirComponents, rawEpisodeFilename, joinPath, hm]
  · simp [rawEpisodeRelPath, rawOutputDirComponents, rawEpisodeFilename, joinPath,
      hm, hy]
  · simp [rawEpisodeRelPath, rawOutputDirComponents, rawEpisodeFilename, joinPath,
      hm, hy]

/-- Witness for `episode_path_formulas`: a concrete series episode and a
concrete year-known movie. -/
theorem episode_path_formulas_witness :
    rawEpisodeRelPath ⟨"T".data, some 2020, 1, false⟩ 2 =
        "T".data ++ "/Season ".data ++ fmt02 1 ++ "/".data ++ "T".data
          ++ " S".data ++ fmt02 1 ++ "E".data ++ fmt02 2 ++ ".mp4".data
      ∧ rawEpisodeRelPath ⟨"A".data, some 2020, 1, true⟩ 1 =
          "A".data ++ " (".data ++ Nat.toDigits 10 2020 ++ ")".data ++ "/".data
            ++ "A".data ++ " (".data ++ Nat.toDigits 10 2020 ++ ").mp4".data :=
  ⟨(episode_path_formulas ⟨"T".data, some 2020, 1, false⟩ 2).1 (by decide),
   (episode_path_formulas ⟨"A".data, some 2020, 1, true⟩ 1).2.1 2020 (by decide)
     (by decide)⟩

/-! ## Base64 (`base64.b64decode` / the site's encoder)

Standard base64 with `=` padding.  `b64Decode` models CPython's non-strict
`b64decode`: characters outside the alphabet (and `=`) are discarded first,
then the stream is consumed in quads, failing (`binascii.Error`, caught as
`ValueError` by the extractor) when the filtered length is not a multiple
of four or padding is malformed. -/

/-- Value of the `k`-th alphabet character, `k < 64`. -/
def b64EncChar (k : Nat) : Char :=
  if k < 26 then Char.ofNat (65 + k)
  else if k < 52 then Char.ofNat (97 + (k - 26))
  else if k < 62 then Char.ofNat (48 + (k - 52))
  else if k = 62 then '+' else '/'

/-- Index of an alphabet character, `none` outside the alphabet. -/
def b64DecChar (c : Char) : Option Nat :=
  let n := c.toNat
  if 65 ≤ n ∧ n ≤ 90 then some (n - 65)
  else if 97 ≤ n ∧ n ≤ 122 then some (n - 97 + 26)
  else if 48 ≤ n ∧ n ≤ 57 then some (n - 48 + 52)
  else if n = 43 then some 62
  else if n = 47 then some 63
  else none

def isB64Char (c : Char) : Bool := (b64DecChar c).isSome

/-- Base64 encoding of a byte list (the site-side encoding the extractor
inverts). -/
def b64Encode : List Nat → List Char
  | [] => []
  | [x] => [b64EncChar (x / 4), b64EncChar (x % 4 * 16), '=', '=']
  | [x, y] =>
    [b64EncChar (x / 4), b64EncChar (x % 4 * 16 + y / 16), b64EncChar (y % 16 * 4), '=']
  | x :: y :: z :: rest =>
    b64EncChar (x / 4) :: b64EncChar (x % 4 * 16 + y / 16)
      :: b64EncChar (y % 16 * 4 + z / 64) :: b64EncChar (z % 64) :: b64Encode rest

/-- Quad-wise decoding of an already filtered character stream. -/
def b64DecodeQuads : List Char → Option (List Nat)
  | [] => some []
  | a :: b :: c :: d :: rest =>
    match b64DecChar a, b64DecChar b with
    | some va, some vb =>
      if c == '=' then
        if d == '=' && rest.isEmpty then some [va * 4 + vb / 16] else none
      else
        match b64DecChar c with
        | some vc =>
          if d == '=' then
            if rest.isEmpty then some [va * 4 + vb / 16, vb % 16 * 16 + vc / 4]
            else none
          else
            match b64DecChar d with
            | some vd =>
              (b64DecodeQuads rest).map fun bs =>
                (va * 4 + vb / 16) :: (vb % 16 * 16 + vc / 4)
                  :: (vc % 4 * 64 + vd) :: bs
            | none => none
        | none => none
    | _, _ => none
  | _ => none

/-- `base64.b64decode` (non-strict mode). -/
def b64Decode (s : List Char) : Option (List Nat) :=
  b64DecodeQuads (s.filter fun c => isB64Char c || c == '=')

theorem b64DecChar_encChar : ∀ k < 64, b64DecChar (b64EncChar k) = some k := by
  decide

theorem b64EncChar_ok : ∀ k < 64, (isB64Char (b64EncChar k) || b64EncChar k == '=') = true := by
  decide

theorem b64EncChar_ne_eq : ∀ k < 64, (b64EncChar k == '=') = false := by
  decide

theorem b64Encode_all_ok (bs : List Nat) (h : ∀ b ∈ bs, b < 256) :
    ∀ c ∈ b64Encode bs, (isB64Char c || c == '=') = true := by
  induction bs using b64Encode.induct with
  | case1 => simp [b64Encode]
  | case2 x =>
    have hx : x < 256 := h x (by simp)
    intro c hc
    rw [b64Encode] at hc
    simp only [List.mem_cons, List.not_mem_nil, or_false] at hc
    rcases hc with hc | hc | hc | hc
    · rw [hc]; exact b64EncChar_ok _ (by omega)
    · rw [hc]; exact b64EncChar_ok _ (by omega)
    · rw [hc]; rfl
    · rw [hc]; rfl
  | case3 x y =>
    have hx : x < 256 := h x (by simp)
    have hy : y < 256 := h y (by simp)
    intro c hc
    rw [b64Encode] at hc
    simp only [List.mem_cons, List.not_mem_nil, or_false] at hc
    rcases hc with hc | hc | hc | hc
    · rw [hc]; exact b64EncChar_ok _ (by omega)
    · rw [hc]; exact b64EncChar_ok _ (by omega)
    · rw [hc]; exact b64EncChar_ok _ (by omega)
    · rw [hc]; rfl
  | case4 x y z rest ih =>
    have hx : x < 256 := h x (by simp)
    have hy : y < 256 := h y (by simp)
    have hz : z < 256 := h z (by simp)
    intro c hc
    rw [b64Encode] at hc
    simp only [List.mem_cons, List.not_mem_nil, or_false] at hc
    rcases hc with hc | hc | hc | hc | hc
    · rw [hc]; exact b64EncChar_ok _ (by omega)
    · rw [hc]; exact b64EncChar_ok _ (by omega)
    · rw [hc]; exact b64EncChar_ok _ (by omega)
    · rw [hc]; exact b64EncChar_ok _ (by omega)
    · exact ih (fun b hb => h b (by simp [hb])) c hc

theorem b64DecodeQuads_encode (bs : List Nat) (h : ∀ b ∈ bs, b < 256) :
    b64DecodeQuads (b64Encode bs) = some bs := by
  induction bs using b64Encode.induct with
  | case1 => rfl
  | case2 x =>
    have hx : x < 256 := h x (by simp)
    have e1 : b64DecChar (b64EncChar (x / 4)) = some (x / 4) :=
      b64DecChar_encChar _ (by omega)
    have e2 : b64DecChar (b64EncChar (x % 4 * 16)) = some (x % 4 * 16) :=
      b64DecChar_encChar _ (by omega)
    simp only [b64Encode, b64DecodeQuads, e1, e2, beq_self_eq_true, List.isEmpty_nil,
      Bool.and_self, if_true, Option.some.injEq, List.cons.injEq, and_true]
    omega
  | case3 x y =>
    have hx : x < 256 := h x (by simp)
    have hy : y < 256 := h y (by simp)
    have e1 : b64DecChar (b64EncChar (x / 4)) = some (x / 4) :=
      b64DecChar_encChar _ (by omega)
    have e2 : b64DecChar (b64EncChar (x % 4 * 16 + y / 16)) = some (x % 4 * 16 + y / 16) :=
      b64DecChar_encChar _ (by omega)
    have e3 : b64DecChar (b64EncChar (y % 16 * 4)) = some (y % 16 * 4) :=
      b64DecChar_encChar _ (by omega)
    have n3 : (b64EncChar (y % 16 * 4) == '=') = false := b64EncChar_ne_eq _ (by omega)
    simp only [b64Encode, b64DecodeQuads, e1, e2, e3, n3, beq_self_eq_true,
      List.isEmpty_nil, Bool.false_eq_true, if_false, if_true, Option.some.injEq,
      List.cons.injEq, and_true]
    omega
  | case4 x y z rest ih =>
    have hx : x < 256 := h x (by simp)
    have hy : y < 256 := h y (by simp)
    have hz : z < 256 := h z (by simp)
    have e1 : b64DecChar (b64EncChar (x / 4)) = some (x / 4) :=
      b64DecChar_encChar _ (by omega)
    have e2 : b64DecChar (b64EncChar (x % 4 * 16 + y / 16)) = some (x % 4 * 16 + y / 16) :=
      b64DecChar_encChar _ (by omega)
    have e3 : b64DecChar (b64EncChar (y % 16 * 4 + z / 64)) = some (y % 16 * 4 + z / 64) :=
      b64DecChar_encChar _ (by omega)
    have e4 : b64DecChar (b64EncChar (z % 64)) = some (z % 64) :=
      b64DecChar_encChar _ (by omega)
    have n3 : (b64EncChar (y % 16 * 4 + z / 64) == '=') = false :=
      b64EncChar_ne_eq _ (by omega)
    have n4 : (b64EncChar (z % 64) == '=') = false := b64EncChar_ne_eq _ (by omega)
    rw [b64Encode]
    simp only [b64DecodeQuads, e1, e2, e3, e4, n3, n4, Bool.false_eq_true, if_false,
      ih (fun b hb => h b (by simp [hb])), Option.map_some', Option.some.injEq,
      List.cons.injEq]
    refine ⟨by omega, by omega, by omega, trivial⟩

/-- Round trip: decoding an encoded byte list recovers it exactly. -/
theorem b64Decode_encode (bs : List Nat) (h : ∀ b ∈ bs, b < 256) :
    b64Decode (b64Encode bs) = some bs := by
  rw [b64Decode, List.filter_eq_self.mpr (b64Encode_all_ok bs h)]
  exact b64DecodeQuads_encode bs h

/-! ## UTF-8 (`bytes.decode("utf-8")` and the site-side encoding) -/

/-- UTF-8 bytes of one code point. -/
def utf8EncodeChar (c : Char) : List Nat :=
  let n := c.toNat
  if n < 0x80 then [n]
  else if n < 0x800 then [0xC0 + n / 64, 0x80 + n % 64]
  else if n < 0x10000 then [0xE0 + n / 4096, 0x80 + n / 64 % 64, 0x80 + n % 64]
  else [0xF0 + n / 0x40000, 0x80 + n / 4096 % 64, 0x80 + n / 64 % 64, 0x80 + n % 64]

/-- UTF-8 bytes of a string. -/
def utf8Encode (s : List Char) : List Nat := (s.map utf8EncodeChar).flatten

/-- A scalar value as a `Char`, `none` when out of range or a surrogate. -/
def mkChar (n : Nat) : Option Char :=
  if h : n.isValidChar then some (Char.ofNatAux n h) else none

/-- Whether a byte is a UTF-8 continuation byte. -/
def isContByte (b : Nat) : Bool := 0x80 ≤ b && b < 0xC0

/-- Completing one decoded scalar: reject values below the branch's
minimum (overlong encodings) and let `mkChar` reject surrogates and
out-of-range values. -/
def utf8Finish (n mn : Nat) (rest : Option (List Char)) : Option (List Char) :=
  if n < mn then none
  else
    match mkChar n, rest with
    | some c, some r => some (c :: r)
    | _, _ => none

/-- Strict UTF-8 decoder (CPython's `bytes.decode("utf-8")`) as a byte-wise
state machine: `k` continuation bytes are still expected for a scalar with
partial value `acc` and overlong bound `mn` (`k = 0` means the next byte is
a lead byte).  Stray or truncated sequences, overlong encodings, surrogates
and out-of-range values — everything that raises `UnicodeDecodeError` in
Python — decode to `none`. -/
def utf8Run : List Nat → Nat → Nat → Nat → Option (List Char)
  | [], k, _, _ => if k = 0 then some [] else none
  | b :: bs, k, acc, mn =>
    if k = 0 then
      if b < 0x80 then utf8Finish b 0 (utf8Run bs 0 0 0)
      else if b < 0xC2 then none
      else if b < 0xE0 then utf8Run bs 1 (b - 0xC0) 0x80
      else if b < 0xF0 then utf8Run bs 2 (b - 0xE0) 0x800
      else if b < 0xF5 then utf8Run bs 3 (b - 0xF0) 0x10000
      else none
    else
      if isContByte b then
        if k = 1 then utf8Finish (acc * 64 + (b - 0x80)) mn (utf8Run bs 0 0 0)
        else utf8Run bs (k - 1) (acc * 64 + (b - 0x80)) mn
      else none

/-- `bytes.decode("utf-8")`. -/
def utf8Decode (l : List Nat) : Option (List Char) := utf8Run l 0 0 0

theorem char_toNat_isValidChar (c : Char) : c.toNat.isValidChar := by
  have h := c.valid
  rw [UInt32.isValidChar] at h
  exact h

theorem char_toNat_lt (c : Char) : c.toNat < 0x110000 := by
  rcases char_toNat_isValidChar c with h | h <;> omega

theorem mkChar_toNat (c : Char) : mkChar c.toNat = some c := by
  rw [mkChar, dif_pos (char_toNat_isValidChar c)]
  congr 1

theorem utf8EncodeChar_lt (c : Char) : ∀ b ∈ utf8EncodeChar c, b < 256 := by
  have hv := char_toNat_lt c
  intro b hb
  rw [utf8EncodeChar] at hb
  split_ifs at hb <;> simp only [List.mem_cons, List.not_mem_nil, or_false] at hb <;>
    rcases hb with hb | hb | hb | hb <;> omega

theorem utf8Encode_lt (s : List Char) : ∀ b ∈ utf8Encode s, b < 256 := by
  induction s with
  | nil => simp [utf8Encode]
  | cons c cs ih =>
    intro b hb
    rw [utf8Encode, List.map_cons, List.flatten_cons] at hb
    rcases List.mem_append.mp hb with hb | hb
    · exact utf8EncodeChar_lt c b hb
    · exact ih b hb

theorem utf8Finish_toNat (c : Char) (mn : Nat) (h : ¬ c.toNat < mn)
    (r : Option (List Char)) :
    utf8Finish c.toNat mn r =
      match r with
      | some l => some (c :: l)
      | none => none := by
  rw [utf8Finish.eq_def, if_neg h, mkChar_toNat c]
  rcases r with _ | l <;> rfl

theorem utf8Run_lead1 (b : Nat) (bs : List Nat) (h : b < 0x80) :
    utf8Run (b :: bs) 0 0 0 = utf8Finish b 0 (utf8Run bs 0 0 0) := by
  rw [utf8Run.eq_def]
  simp only [isContByte, Bool.and_eq_true, decide_eq_true_eq]
  split_ifs <;> first | rfl | (exfalso; first | omega | assumption)

theorem utf8Run_lead2 (b : Nat) (bs : List Nat) (h1 : 0xC2 ≤ b) (h2 : b < 0xE0) :
    utf8Run (b :: bs) 0 0 0 = utf8Run bs 1 (b - 0xC0) 0x80 := by
  rw [utf8Run.eq_def]
  simp only [isContByte, Bool.and_eq_true, decide_eq_true_eq]
  split_ifs <;> first | rfl | (exfalso; first | omega | assumption)

theorem utf8Run_lead3 (b : Nat) (bs : List Nat) (h1 : 0xE0 ≤ b) (h2 : b < 0xF0) :
    utf8Run (b :: bs) 0 0 0 = utf8Run bs 2 (b - 0xE0) 0x800 := by
  rw [utf8Run.eq_def]
  simp only [isContByte, Bool.and_eq_true, decide_eq_true_eq]
  split_ifs <;> first | rfl | (exfalso; first | omega | assumption)

theorem utf8Run_lead4 (b : Nat) (bs : List Nat) (h1 : 0xF0 ≤ b) (h2 : b < 0xF5) :
    utf8Run (b :: bs) 0 0 0 = utf8Run bs 3 (b - 0xF0) 0x10000 := by
  rw [utf8Run.eq_def]
  simp only [isContByte, Bool.and_eq_true, decide_eq_true_eq]
  split_ifs <;> first | rfl | (exfalso; first | omega | assumption)

theorem utf8Run_cont1 (b : Nat) (bs : List Nat) (acc mn : Nat)
    (hb1 : 0x80 ≤ b) (hb2 : b < 0xC0) :
    utf8Run (b :: bs) 1 acc mn = utf8Finish (acc * 64 + (b - 0x80)) mn
      (utf8Run bs 0 0 0) := by
  rw [utf8Run.eq_def]
  simp only [isContByte, Bool.and_eq_true, decide_eq_true_eq]
  split_ifs <;> first | rfl | (exfalso; first | omega | assumption)

theorem utf8Run_contk (b : Nat) (bs : List Nat) (k acc mn : Nat) (hk : 2 ≤ k)
    (hb1 : 0x80 ≤ b) (hb2 : b < 0xC0) :
    utf8Run (b :: bs) k acc mn = utf8Run bs (k - 1) (acc * 64 + (b - 0x80)) mn := by
  rw [utf8Run.eq_def]
  simp only [isContByte, Bool.and_eq_true, decide_eq_true_eq]
  split_ifs <;> first | rfl | (exfalso; first | omega | assumption)

theorem utf8Decode_encodeChar (c : Char) (bs : List Nat) :
    utf8Run (utf8EncodeChar c ++ bs) 0 0 0 =
      match utf8Run bs 0 0 0 with
      | some r => some (c :: r)
      | none => none := by
  have hlt := char_toNat_lt c
  rw [utf8EncodeChar]
  by_cases h1 : c.toNat < 0x80
  · rw [if_pos h1]
    show utf8Run (c.toNat :: bs) 0 0 0 = _
    rw [utf8Run_lead1 _ _ h1, utf8Finish_toNat c 0 (by omega)]
  · rw [if_neg h1]
    by_cases h2 : c.toNat < 0x800
    · rw [if_pos h2]
      show utf8Run ((0xC0 + c.toNat / 64) :: ((0x80 + c.toNat % 64) :: bs)) 0 0 0 = _
      rw [utf8Run_lead2 _ _ (by omega) (by omega),
        utf8Run_cont1 _ _ _ _ (by omega) (by omega)]
      have hn : (0xC0 + c.toNat / 64 - 0xC0) * 64 + (0x80 + c.toNat % 64 - 0x80)
          = c.toNat := by omega
      rw [hn, utf8Finish_toNat c 0x80 (by omega)]
    · rw [if_neg h2]
      by_cases h3 : c.toNat < 0x10000
      · rw [if_pos h3]
        show utf8Run ((0xE0 + c.toNat / 4096) :: ((0x80 + c.toNat / 64 % 64)
          :: (0x80 + c.toNat % 64) :: bs)) 0 0 0 = _
        rw [utf8Run_lead3 _ _ (by omega) (by omega),
          utf8Run_contk _ _ _ _ _ (by omega) (by omega) (by omega),
          utf8Run_cont1 _ _ _ _ (by omega) (by omega)]
        have hn : ((0xE0 + c.toNat / 4096 - 0xE0) * 64
            + (0x80 + c.toNat / 64 % 64 - 0x80)) * 64 + (0x80 + c.toNat % 64 - 0x80)
            = c.toNat := by omega
        rw [hn, utf8Finish_toNat c 0x800 (by omega)]
      · rw [if_neg h3]
        show utf8Run ((0xF0 + c.toNat / 0x40000) :: ((0x80 + c.toNat / 4096 % 64)
          :: (0x80 + c.toNat / 64 % 64) :: (0x80 + c.toNat % 64) :: bs)) 0 0 0 = _
        rw [utf8Run_lead4 _ _ (by omega) (by omega),
          utf8Run_contk _ _ _ _ _ (by omega) (by omega) (by omega),
          utf8Run_contk _ _ _ _ _ (by omega) (by omega) (by omega),
          utf8Run_cont1 _ _ _ _ (by omega) (by omega)]
        have hn : (((0xF0 + c.toNat / 0x40000 - 0xF0) * 64
            + (0x80 + c.toNat / 4096 % 64 - 0x80)) * 64
            + (0x80 + c.toNat / 64 % 64 - 0x80)) * 64 + (0x80 + c.toNat % 64 - 0x80)
            = c.toNat := by omega
        rw [hn, utf8Finish_toNat c 0x10000 (by omega)]

/-- Round trip: decoding an encoded string recovers it exactly. -/
theorem utf8Decode_encode (s : List Char) : utf8Decode (utf8Encode s) = some s := by
  induction s with
  | nil => rfl
  | cons c cs ih =>
    rw [utf8Decode, utf8Encode, List.map_cons, List.flatten_cons]
    rw [show (cs.map utf8EncodeChar).flatten = utf8Encode cs from rfl]
    rw [utf8Decode_encodeChar c (utf8Encode cs)]
    rw [show utf8Run (utf8Encode cs) 0 0 0 = utf8Decode (utf8Encode cs) from rfl, ih]

/-! ## Shared URL normalization (`extraction/base_extractor.py`) -/

/-- `BaseVideoExtractor.normalize_url`: promote a `//` prefix to `https://`
and strip trailing slashes. -/
def normalizeUrl (url : List Char) : List Char :=
  if url.isEmpty then url
  else
    let u := if pyStartsWith url "//".data then "https:".data ++ url else url
    pyRstripSlash u

/-! ## Vendor-A extractor (`extraction/tortuga_extractor.py`)

`TortugaCoreExtractor.extract_url` runs
`re.search(r'new\s+TortugaCore\s*\(\s*\{[^}]*file\s*:\s*["\']([^"\']+)["\']', html, re.DOTALL)`
and then base64-decodes, UTF-8-decodes, reverses and normalizes the capture.
The regex is embedded as a specialized matcher: literals and character
classes are matched directly; `\s+`/`\s*` and the two one-character-class
repetitions are implemented by maximal munch, which coincides with the
backtracking semantics because each is followed by a token its own class
excludes (`T`/`(`/`{`/`:` and quotes after `\s`-repetitions, a quote after
`[^"']+`); only `[^}]*` needs real backtracking, implemented longest-first
in `tortugaStarThen`. -/

/-- Match a literal, returning the rest of the input. -/
def dropLit : List Char → List Char → Option (List Char)
  | [], input => some input
  | _ :: _, [] => none
  | c :: cs, x :: xs => if x == c then dropLit cs xs else none

/-- The tail of the pattern after `[^}]*`:
`file\s*:\s*["\']([^"\']+)["\']`, returning the capture. -/
def tortugaFileCont (input : List Char) : Option (List Char) :=
  match dropLit "file".data input with
  | none => none
  | some r1 =>
    match dropLit ":".data (r1.dropWhile isPySpace) with
    | none => none
    | some r3 =>
      match r3.dropWhile isPySpace with
      | [] => none
      | q :: rest =>
        if q == '"' || q == '\'' then
          let cap := rest.takeWhile fun c => !(c == '"' || c == '\'')
          match rest.dropWhile fun c => !(c == '"' || c == '\'') with
          | q2 :: _ =>
            if (q2 == '"' || q2 == '\'') && !cap.isEmpty then some cap else none
          | [] => none
        else none

/-- Greedy `[^}]*` followed by `tortugaFileCont`, longest consumption
first. -/
def tortugaStarThen : List Char → Option (List Char)
  | [] => tortugaFileCont []
  | c :: cs =>
    if c == '}' then tortugaFileCont (c :: cs)
    else
      match tortugaStarThen cs with
      | some r => some r
      | none => tortugaFileCont (c :: cs)

/-- One anchored attempt of the whole pattern. -/
def tortugaMatchAt (input : List Char) : Option (List Char) :=
  match dropLit "new".data input with
  | none => none
  | some r1 =>
    match r1 with
    | [] => none
    | c :: _ =>
      if isPySpace c then
        match dropLit "TortugaCore".data (r1.dropWhile isPySpace) with
        | none => none
        | some r3 =>
          match dropLit "(".data (r3.dropWhile isPySpace) with
          | none => none
          | some r5 =>
            match dropLit "\x7b".data (r5.dropWhile isPySpace) with
            | none => none
            | some r7 => tortugaStarThen r7
      else none

/-- `re.search`: leftmost successful attempt (the pattern needs the literal
`new`, which no attempt at the empty suffix can supply). -/
def tortugaSearch : List Char → Option (List Char)
  | [] => none
  | c :: rest =>
    match tortugaMatchAt (c :: rest) with
    | some r => some r
    | none => tortugaSearch rest

/-- `TortugaCoreExtractor.can_handle`. -/
def tortugaCanHandle (html : List Char) : Bool :=
  pyContains html "TortugaCore".data

/-- `TortugaCoreExtractor.extract_url`: capture, base64-decode, UTF-8
decode, reverse, normalize; every decode failure yields `none` (the Python
code catches `ValueError`/`UnicodeDecodeError` and returns `None`). -/
def tortugaExtract (html : List Char) : Option (List Char) :=
  match tortugaSearch html with
  | none => none
  | some encoded =>
    match b64Decode encoded with
    | none => none
    | some bytes =>
      match utf8Decode bytes with
      | none => none
      | some decoded => some (normalizeUrl decoded.reverse)

/-- Markup embedding a payload as the constructor's `file` property, for
the round-trip statement. -/
def tortugaMarkup (payload : List Char) : List Char :=
  "new TortugaCore(\x7bfile: \"".data ++ payload ++ "\"\x7d)".data

/-- Characters of a base64 payload (alphabet or padding). -/
def okB64 (c : Char) : Bool := isB64Char c || c == '='

theorem okB64_toNat (c : Char) (h : okB64 c = true) :
    (65 ≤ c.toNat ∧ c.toNat ≤ 90) ∨ (97 ≤ c.toNat ∧ c.toNat ≤ 122)
      ∨ (48 ≤ c.toNat ∧ c.toNat ≤ 57) ∨ c.toNat = 43 ∨ c.toNat = 47
      ∨ c.toNat = 61 := by
  rcases Bool.or_eq_true _ _ |>.mp h with h | h
  · rw [isB64Char, b64DecChar] at h
    split_ifs at h with h1 h2 h3 h4 h5
    · tauto
    · tauto
    · tauto
    · tauto
    · tauto
    · simp at h
  · have he : c = '=' := by simpa using h
    subst he
    decide

theorem beq_false_of_toNat_ne {c d : Char} (h : c.toNat ≠ d.toNat) :
    (c == d) = false := by
  apply beq_eq_false_iff_ne.mpr
  intro he
  exact h (congrArg Char.toNat he)

theorem okB64_ne (c : Char) (h : okB64 c = true) :
    (c == '}') = false ∧ (c == '"') = false ∧ (c == '\'') = false
      ∧ (c == ':') = false ∧ isPySpace c = false := by
  have ht := okB64_toNat c h
  refine ⟨beq_false_of_toNat_ne (by rw [show '}'.toNat = 125 from rfl]; omega),
    beq_false_of_toNat_ne (by rw [show '"'.toNat = 34 from rfl]; omega),
    beq_false_of_toNat_ne (by rw [show '\''.toNat = 39 from rfl]; omega),
    beq_false_of_toNat_ne (by rw [show ':'.toNat = 58 from rfl]; omega), ?_⟩
  rw [isPySpace]
  rw [beq_false_of_toNat_ne (by rw [show ' '.toNat = 32 from rfl]; omega),
    beq_false_of_toNat_ne (by rw [show '\t'.toNat = 9 from rfl]; omega),
    beq_false_of_toNat_ne (by rw [show '\n'.toNat = 10 from rfl]; omega),
    beq_false_of_toNat_ne (by rw [show '\r'.toNat = 13 from rfl]; omega),
    beq_false_of_toNat_ne (by rw [show (Char.ofNat 11).toNat = 11 from rfl]; omega),
    beq_false_of_toNat_ne (by rw [show (Char.ofNat 12).toNat = 12 from rfl]; omega)]
  rfl

theorem takeWhile_all_append (p : Char → Bool) (l r : List Char)
    (h : ∀ c ∈ l, p c = true) :
    (l ++ r).takeWhile p = l ++ r.takeWhile p := by
  induction l with
  | nil => rfl
  | cons c cs ih =>
    rw [List.cons_append, List.takeWhile_cons, h c (by simp), List.cons_append,
      ih (fun d hd => h d (by simp [hd]))]
    rfl

theorem dropWhile_all_append (p : Char → Bool) (l r : List Char)
    (h : ∀ c ∈ l, p c = true) :
    (l ++ r).dropWhile p = r.dropWhile p := by
  induction l with
  | nil => rfl
  | cons c cs ih =>
    rw [List.cons_append, List.dropWhile_cons, h c (by simp),
      ih (fun d hd => h d (by simp [hd]))]
    simp

/-- Inside the payload, the pattern tail `file\s*:\s*["']...` can never
match: even where the letters `file` occur, the next character is a base64
character or the closing quote, never (whitespace or) a colon. -/
theorem tortugaFileCont_payload_suffix (s : List Char)
    (hs : ∀ c ∈ s, okB64 c = true) :
    tortugaFileCont (s ++ '"' :: '}' :: ')' :: []) = none := by
  match s, hs with
  | [], _ => rfl
  | [c1], hs =>
    rw [tortugaFileCont.eq_def]
    rw [show ("file".data) = 'f' :: 'i' :: 'l' :: 'e' :: [] from rfl]
    rw [show ([c1] ++ '"' :: '}' :: ')' :: []) = c1 :: '"' :: '}' :: ')' :: [] from rfl]
    rw [dropLit]
    by_cases h1 : (c1 == 'f') = true
    · rw [if_pos h1]; rfl
    · rw [Bool.not_eq_true] at h1; rw [h1]; rfl
  | [c1, c2], hs =>
    rw [tortugaFileCont.eq_def]
    rw [show ("file".data) = 'f' :: 'i' :: 'l' :: 'e' :: [] from rfl]
    rw [show ([c1, c2] ++ '"' :: '}' :: ')' :: [])
      = c1 :: c2 :: '"' :: '}' :: ')' :: [] from rfl]
    rw [dropLit]
    by_cases h1 : (c1 == 'f') = true
    · rw [if_pos h1, dropLit]
      by_cases h2 : (c2 == 'i') = true
      · rw [if_pos h2]; rfl
      · rw [Bool.not_eq_true] at h2; rw [h2]; rfl
    · rw [Bool.not_eq_true] at h1; rw [h1]; rfl
  | [c1, c2, c3], hs =>
    rw [tortugaFileCont.eq_def]
    rw [show ("file".data) = 'f' :: 'i' :: 'l' :: 'e' :: [] from rfl]
    rw [show ([c1, c2, c3] ++ '"' :: '}' :: ')' :: [])
      = c1 :: c2 :: c3 :: '"' :: '}' :: ')' :: [] from rfl]
    rw [dropLit]
    by_cases h1 : (c1 == 'f') = true
    · rw [if_pos h1, dropLit]
      by_cases h2 : (c2 == 'i') = true
      · rw [if_pos h2, dropLit]
        by_cases h3 : (c3 == 'l') = true
        · rw [if_pos h3]; rfl
        · rw [Bool.not_eq_true] at h3; rw [h3]; rfl
      · rw [Bool.not_eq_true] at h2; rw [h2]; rfl
    · rw [Bool.not_eq_true] at h1; rw [h1]; rfl
  | c1 :: c2 :: c3 :: c4 :: s4, hs =>
    rw [tortugaFileCont.eq_def]
    rw [show ("file".data) = 'f' :: 'i' :: 'l' :: 'e' :: [] from rfl]
    rw [show ((c1 :: c2 :: c3 :: c4 :: s4) ++ '"' :: '}' :: ')' :: [])
      = c1 :: c2 :: c3 :: c4 :: (s4 ++ '"' :: '}' :: ')' :: []) from rfl]
    rw [dropLit]
    by_cases h1 : (c1 == 'f') = true
    case neg => rw [Bool.not_eq_true] at h1; rw [h1]; rfl
    rw [if_pos h1, dropLit]
    by_cases h2 : (c2 == 'i') = true
    case neg => rw [Bool.not_eq_true] at h2; rw [h2]; rfl
    rw [if_pos h2, dropLit]
    by_cases h3 : (c3 == 'l') = true
    case neg => rw [Bool.not_eq_true] at h3; rw [h3]; rfl
    rw [if_pos h3, dropLit]
    by_cases h4 : (c4 == 'e') = true
    case neg => rw [Bool.not_eq_true] at h4; rw [h4]; rfl
    rw [if_pos h4, dropLit]
    show (match dropLit ":".data
        ((s4 ++ '"' :: '}' :: ')' :: []).dropWhile isPySpace) with
      | none => none
      | some r3 => _) = none
    -- after the letters `file`, a space-free head that is not a colon kills
    -- the `\s*:` tail
    have hsp : (s4 ++ '"' :: '}' :: ')' :: []).dropWhile isPySpace
        = s4 ++ '"' :: '}' :: ')' :: [] := by
      match s4, hs with
      | [], _ => rfl
      | d :: ds, hs =>
        rw [List.cons_append, List.dropWhile_cons,
          (okB64_ne d (hs d (by simp))).2.2.2.2]
        rfl
    rw [hsp]
    match s4, hs with
    | [], _ => rfl
    | d :: ds, hs =>
      rw [List.cons_append]
      rw [show dropLit ":".data (d :: (ds ++ '"' :: '}' :: ')' :: []))
        = if (d == ':') = true then some (ds ++ '"' :: '}' :: ')' :: []) else none
        from rfl]
      rw [(okB64_ne d (hs d (by simp))).2.2.2.1]
      rfl

/-- One-step unfolding of the greedy scan. -/
theorem tortugaStarThen_cons (c : Char) (cs : List Char) :
    tortugaStarThen (c :: cs) =
      if (c == '}') = true then tortugaFileCont (c :: cs)
      else
        match tortugaStarThen cs with
        | some r => some r
        | none => tortugaFileCont (c :: cs) := by
  rw [tortugaStarThen.eq_def]

/-- Scanning `[^}]*` anywhere inside the payload never completes a match:
every stop position fails `tortugaFileCont`. -/
theorem tortugaStarThen_payload (s : List Char) (hs : ∀ c ∈ s, okB64 c = true) :
    tortugaStarThen (s ++ '"' :: '}' :: ')' :: []) = none := by
  induction s with
  | nil => rfl
  | cons c cs ih =>
    rw [List.cons_append, tortugaStarThen_cons]
    rw [(okB64_ne c (hs c (by simp))).1]
    rw [ih (fun d hd => hs d (by simp [hd]))]
    simp only [Bool.false_eq_true, if_false]
    exact tortugaFileCont_payload_suffix (c :: cs) hs

/-- The pattern tail succeeds exactly at the start of the
`file: "<payload>"` region, capturing the payload. -/
theorem tortugaFileCont_region (p : List Char) (hp : ∀ c ∈ p, okB64 c = true)
    (hne : p ≠ []) :
    tortugaFileCont ('f' :: 'i' :: 'l' :: 'e' :: ':' :: ' ' :: '"'
      :: (p ++ '"' :: '}' :: ')' :: [])) = some p := by
  have hnq : ∀ c ∈ p, (!(c == '"' || c == '\'')) = true := by
    intro c hc
    rw [(okB64_ne c (hp c hc)).2.1, (okB64_ne c (hp c hc)).2.2.1]
    rfl
  have htw : (p ++ '"' :: '}' :: ')' :: []).takeWhile
      (fun c => !(c == '"' || c == '\'')) = p := by
    rw [takeWhile_all_append _ _ _ hnq]
    simp [List.takeWhile_cons]
  have hdw : (p ++ '"' :: '}' :: ')' :: []).dropWhile
      (fun c => !(c == '"' || c == '\'')) = '"' :: '}' :: ')' :: [] := by
    rw [dropWhile_all_append _ _ _ hnq]
    simp [List.dropWhile_cons]
  rw [tortugaFileCont.eq_def]
  show (match ('"' :: (p ++ '"' :: '}' :: ')' :: [])).dropWhile isPySpace with
    | [] => none
    | q :: rest => _) = some p
  rw [List.dropWhile_cons]
  show (match ('"' : Char) :: (p ++ '"' :: '}' :: ')' :: []) with
    | [] => none
    | q :: rest => _) = some p
  simp only [htw, hdw]
  simp [List.isEmpty_iff, hne]

/-- The greedy `[^}]*` scan over the whole brace body backtracks to the
region start and captures the payload. -/
theorem tortugaStarThen_region (p : List Char) (hp : ∀ c ∈ p, okB64 c = true)
    (hne : p ≠ []) :
    tortugaStarThen ('f' :: 'i' :: 'l' :: 'e' :: ':' :: ' ' :: '"'
      :: (p ++ '"' :: '}' :: ')' :: [])) = some p := by
  have h7 : tortugaStarThen ('"' :: (p ++ '"' :: '}' :: ')' :: [])) = none := by
    rw [tortugaStarThen_cons, tortugaStarThen_payload p hp]
    rfl
  have h6 : tortugaStarThen (' ' :: '"' :: (p ++ '"' :: '}' :: ')' :: []))
      = none := by
    rw [tortugaStarThen_cons, h7]
    rfl
  have h5 : tortugaStarThen (':' :: ' ' :: '"' :: (p ++ '"' :: '}' :: ')' :: []))
      = none := by
    rw [tortugaStarThen_cons, h6]
    rfl
  have h4 : tortugaStarThen ('e' :: ':' :: ' ' :: '"'
      :: (p ++ '"' :: '}' :: ')' :: [])) = none := by
    rw [tortugaStarThen_cons, h5]
    rfl
  have h3 : tortugaStarThen ('l' :: 'e' :: ':' :: ' ' :: '"'
      :: (p ++ '"' :: '}' :: ')' :: [])) = none := by
    rw [tortugaStarThen_cons, h4]
    rfl
  have h2 : tortugaStarThen ('i' :: 'l' :: 'e' :: ':' :: ' ' :: '"'
      :: (p ++ '"' :: '}' :: ')' :: [])) = none := by
    rw [tortugaStarThen_cons, h3]
    rfl
  rw [tortugaStarThen_cons, h2]
  exact tortugaFileCont_region p hp hne

theorem tortugaSearch_cons (c : Char) (rest : List Char) :
    tortugaSearch (c :: rest) =
      match tortugaMatchAt (c :: rest) with
      | some r => some r
      | none => tortugaSearch rest := by
  rw [tortugaSearch.eq_def]

/-- `re.search` on the canonical markup: the attempt at position 0 already
succeeds, capturing the payload. -/
theorem tortugaSearch_markup (p : List Char) (hp : ∀ c ∈ p, okB64 c = true)
    (hne : p ≠ []) : tortugaSearch (tortugaMarkup p) = some p := by
  have hm : tortugaMatchAt (tortugaMarkup p) = some p := by
    have hred : tortugaMatchAt (tortugaMarkup p)
        = tortugaStarThen ('f' :: 'i' :: 'l' :: 'e' :: ':' :: ' ' :: '"'
          :: (p ++ '"' :: '}' :: ')' :: [])) := rfl
    rw [hred]
    exact tortugaStarThen_region p hp hne
  show tortugaSearch ('n' :: ("ew TortugaCore(\x7bfile: \"".data
    ++ (p ++ "\"\x7d)".data))) = some p
  rw [tortugaSearch_cons]
  rw [show ('n' :: ("ew TortugaCore(\x7bfile: \"".data ++ (p ++ "\"\x7d)".data)))
    = tortugaMarkup p from rfl]
  rw [hm]

theorem utf8EncodeChar_ne_nil (c : Char) : utf8EncodeChar c ≠ [] := by
  rw [utf8EncodeChar]
  split_ifs <;> simp

theorem utf8Encode_ne_nil (s : List Char) (h : s ≠ []) : utf8Encode s ≠ [] := by
  match s, h with
  | c :: cs, _ =>
    rw [utf8Encode, List.map_cons, List.flatten_cons]
    simp [utf8EncodeChar_ne_nil c]

theorem b64Encode_ne_nil (bs : List Nat) (h : bs ≠ []) : b64Encode bs ≠ [] := by
  match bs, h with
  | [x], _ => simp [b64Encode]
  | [x, y], _ => simp [b64Encode]
  | x :: y :: z :: r, _ => simp [b64Encode]

/-- C5: for every non-empty URL `u`, the TortugaCore extractor applied to
markup embedding `base64(utf8(reverse(u)))` as the constructor's `file`
property recovers `u` up to the shared URL normalization; and whenever the
captured payload fails base64 decoding or UTF-8 decoding, the extractor
returns `none` instead of raising. -/
theorem tortuga_extractor_roundtrip :
    (∀ u : List Char, u ≠ [] →
        tortugaExtract (tortugaMarkup (b64Encode (utf8Encode u.reverse)))
          = some (normalizeUrl u))
    ∧ (∀ html enc, tortugaSearch html = some enc → b64Decode enc = none →
        tortugaExtract html = none)
    ∧ (∀ html enc bytes, tortugaSearch html = some enc →
        b64Decode enc = some bytes → utf8Decode bytes = none →
        tortugaExtract html = none) := by
  refine ⟨fun u hu => ?_, fun html enc h1 h2 => ?_,
    fun html enc bytes h1 h2 h3 => ?_⟩
  · have hbytes : ∀ b ∈ utf8Encode u.reverse, b < 256 := utf8Encode_lt _
    have hok : ∀ c ∈ b64Encode (utf8Encode u.reverse), okB64 c = true :=
      fun c hc => b64Encode_all_ok _ hbytes c hc
    have hne : b64Encode (utf8Encode u.reverse) ≠ [] :=
      b64Encode_ne_nil _ (utf8Encode_ne_nil _ (by simpa using hu))
    rw [tortugaExtract.eq_def, tortugaSearch_markup _ hok hne]
    simp only []
    rw [b64Decode_encode _ hbytes]
    simp only []
    rw [utf8Decode_encode]
    simp only []
    rw [List.reverse_reverse]
  · rw [tortugaExtract.eq_def, h1]
    simp only []
    rw [h2]
  · rw [tortugaExtract.eq_def, h1]
    simp only []
    rw [h2]
    simp only []
    rw [h3]

/-- Witness for `tortuga_extractor_roundtrip`: the round trip at
`u = "ab"`, a non-base64 payload (`"a"`), and a payload decoding to the
invalid UTF-8 byte `0xFF` (`"/w=="`). -/
theorem tortuga_extractor_roundtrip_witness :
    tortugaExtract (tortugaMarkup (b64Encode (utf8Encode ("ab".data).reverse)))
        = some (normalizeUrl "ab".data)
      ∧ tortugaExtract (tortugaMarkup "a".data) = none
      ∧ tortugaExtract (tortugaMarkup "/w==".data) = none :=
  ⟨tortuga_extractor_roundtrip.1 "ab".data (by decide),
   tortuga_extractor_roundtrip.2.1 (tortugaMarkup "a".data) "a".data (by decide)
     (by decide),
   tortuga_extractor_roundtrip.2.2 (tortugaMarkup "/w==".data) "/w==".data
     [255] (by decide) (by decide) (by decide)⟩

/-! ## Vendor-B extractor (`extraction/playerjs_extractor.py`)

`PlayerJSExtractor.extract_url` locates the config with
`re.search(r"Playerjs\s*\(\s*(\{[^}]+\})\s*\)", html, re.DOTALL)`, falling
back to the lazy `re.search(r"Playerjs\s*\(\s*(\{[\s\S]*?\})\s*\)", html)`;
then tries the direct capture
`re.search(r'file["\']?\s*:\s*["\']([^"\']+)["\']', json_str)` and only if
that fails normalizes quotes and parses the object with `json.loads`.
As for vendor A, repetitions followed by a token their class excludes are
maximal munch; `[^}]+` is bounded by its own class, so its greedy match is
the run up to the first `}` with no backtracking possible. -/

/-- `PlayerJSExtractor.can_handle`. -/
def pjCanHandle (html : List Char) : Bool := pyContains html "Playerjs".data

/-- The `[^}]+\}\s*\)` tail of the first config pattern, applied to the
input after the opening brace; the capture keeps its braces, as in group 1
of the regex. -/
def pjConfigBody (r3 : List Char) : Option (List Char) :=
  let inner := r3.takeWhile fun c => !(c == '}')
  if inner.isEmpty then none
  else
    match r3.dropWhile fun c => !(c == '}') with
    | '}' :: r4 =>
      match dropLit ")".data (r4.dropWhile isPySpace) with
      | none => none
      | some _ => some ('{' :: (inner ++ '}' :: []))
    | _ => none

/-- One anchored attempt of the first (greedy single-object) config
pattern. -/
def pjConfigMatchAt (input : List Char) : Option (List Char) :=
  match dropLit "Playerjs".data input with
  | none => none
  | some r1 =>
    match dropLit "(".data (r1.dropWhile isPySpace) with
    | none => none
    | some r2 =>
      match dropLit "\x7b".data (r2.dropWhile isPySpace) with
      | none => none
      | some r3 => pjConfigBody r3

/-- `re.search` for the first config pattern. -/
def pjConfigSearch1 : List Char → Option (List Char)
  | [] => none
  | c :: rest =>
    match pjConfigMatchAt (c :: rest) with
    | some r => some r
    | none => pjConfigSearch1 rest

/-- Lazy `[\s\S]*?\}\s*\)` after the opening brace: the body grows one
character at a time, stopping at the first `}` whose tail matches
`\s*\)`. -/
def pjLazyScan : List Char → List Char → Option (List Char)
  | _, [] => none
  | acc, c :: rest =>
    if c == '}' then
      match dropLit ")".data (rest.dropWhile isPySpace) with
      | some _ => some ('{' :: (acc.reverse ++ '}' :: []))
      | none => pjLazyScan (c :: acc) rest
    else pjLazyScan (c :: acc) rest

/-- One anchored attempt of the second (lazy) config pattern. -/
def pjConfigMatchAt2 (input : List Char) : Option (List Char) :=
  match dropLit "Playerjs".data input with
  | none => none
  | some r1 =>
    match dropLit "(".data (r1.dropWhile isPySpace) with
    | none => none
    | some r2 =>
      match dropLit "\x7b".data (r2.dropWhile isPySpace) with
      | none => none
      | some r3 => pjLazyScan [] r3

/-- `re.search` for the second config pattern. -/
def pjConfigSearch2 : List Char → Option (List Char)
  | [] => none
  | c :: rest =>
    match pjConfigMatchAt2 (c :: rest) with
    | some r => some r
    | none => pjConfigSearch2 rest

/-- First alternative wins (regex alternation of the two attempts of the
optional quote). -/
def pjOrElse (a : Option (List Char)) (b : Unit → Option (List Char)) :
    Option (List Char) :=
  match a with
  | some x => some x
  | none => b ()

/-- The quoted capture `["\']([^"\']+)["\']`. -/
def pjCapture (rest : List Char) : Option (List Char) :=
  let cap := rest.takeWhile fun c => !(c == '"' || c == '\'')
  match rest.dropWhile fun c => !(c == '"' || c == '\'') with
  | q2 :: _ =>
    if (q2 == '"' || q2 == '\'') && !cap.isEmpty then some cap else none
  | [] => none

/-- Tail `\s*:\s*["\']([^"\']+)["\']` of the file pattern. -/
def pjFileTail (input : List Char) : Option (List Char) :=
  match dropLit ":".data (input.dropWhile isPySpace) with
  | none => none
  | some r2 =>
    match r2.dropWhile isPySpace with
    | [] => none
    | q :: rest => if q == '"' || q == '\'' then pjCapture rest else none

/-- One anchored attempt of `file["\']?\s*:\s*["\']([^"\']+)["\']`; the
optional quote is tried greedily first, without it second. -/
def pjFileMatchAt (input : List Char) : Option (List Char) :=
  match dropLit "file".data input with
  | none => none
  | some r1 =>
    match r1 with
    | [] => none
    | q :: rest =>
      if q == '"' || q == '\'' then
        pjOrElse (pjFileTail rest) fun _ => pjFileTail (q :: rest)
      else pjFileTail (q :: rest)

/-- `re.search` for the file pattern. -/
def pjFileSearch : List Char → Option (List Char)
  | [] => none
  | c :: rest =>
    match pjFileMatchAt (c :: rest) with
    | some r => some r
    | none => pjFileSearch rest

/-! ### Fallback: quote normalization and `json.loads`

The two `re.sub` passes and the JSON parser are written with an explicit
fuel argument (one unit per input character is always enough, each step
consumes at least one character); the callers pass the input length. -/

/-- `\w` (ASCII range — the config keys in scope). -/
def isWordChar (c : Char) : Bool :=
  (65 ≤ c.toNat && c.toNat ≤ 90) || (97 ≤ c.toNat && c.toNat ≤ 122)
    || (48 ≤ c.toNat && c.toNat ≤ 57) || c == '_'

/-- `re.sub(r"'(\w+)'(\s*:)", r'"\1"\2', s)`: double-quote single-quoted
keys before a colon. -/
def pjSub1 (fuel : Nat) (s : List Char) : List Char :=
  match fuel, s with
  | 0, s => s
  | _, [] => []
  | fuel + 1, c :: rest =>
    if c == '\'' then
      let w := rest.takeWhile isWordChar
      let r1 := rest.dropWhile isWordChar
      if w.isEmpty then c :: pjSub1 fuel rest
      else
        match r1 with
        | q :: r2 =>
          if q == '\'' then
            let sp := r2.takeWhile isPySpace
            match r2.dropWhile isPySpace with
            | ':' :: r4 => '"' :: (w ++ '"' :: (sp ++ ':' :: pjSub1 fuel r4))
            | _ => c :: pjSub1 fuel rest
          else c :: pjSub1 fuel rest
        | [] => c :: pjSub1 fuel rest
    else c :: pjSub1 fuel rest

/-- `re.sub(r":\s*'([^']*)'", r': "\1"', s)`: double-quote single-quoted
simple values after a colon (note the canonical single space the
replacement inserts). -/
def pjSub2 (fuel : Nat) (s : List Char) : List Char :=
  match fuel, s with
  | 0, s => s
  | _, [] => []
  | fuel + 1, c :: rest =>
    if c == ':' then
      match rest.dropWhile isPySpace with
      | '\'' :: r2 =>
        let v := r2.takeWhile fun d => !(d == '\'')
        match r2.dropWhile fun d => !(d == '\'') with
        | '\'' :: r4 => ':' :: ' ' :: '"' :: (v ++ '"' :: pjSub2 fuel r4)
        | _ => c :: pjSub2 fuel rest
      | _ => c :: pjSub2 fuel rest
    else c :: pjSub2 fuel rest

/-- JSON values, as far as `config.get("file", "")` needs them. -/
inductive JVal where
  | jstr (s : List Char)
  | jnum
  | jbool (b : Bool)
  | jnull
  | jarr (xs : List JVal)
  | jobj (fields : List (List Char × JVal))
  deriving Repr

/-- JSON whitespace. -/
def isJsonWs (c : Char) : Bool :=
  c == ' ' || c == '\t' || c == '\n' || c == '\r'

/-- Characters a JSON number may consume (validity is irrelevant to the
`file` lookup). -/
def isJsonNumChar (c : Char) : Bool :=
  (48 ≤ c.toNat && c.toNat ≤ 57) || c == '-' || c == '+' || c == '.'
    || c == 'e' || c == 'E'

/-- A double-quoted JSON string body; escapes keep the escaped character. -/
def jparseString (fuel : Nat) (s : List Char) : Option (List Char × List Char) :=
  match fuel, s with
  | 0, _ => none
  | _, [] => none
  | fuel + 1, c :: rest =>
    if c == '"' then some ([], rest)
    else if c == '\\' then
      match rest with
      | d :: rest2 =>
        match jparseString fuel rest2 with
        | some (body, r) => some (d :: body, r)
        | none => none
      | [] => none
    else
      match jparseString fuel rest with
      | some (body, r) => some (c :: body, r)
      | none => none

mutual

/-- A JSON value (after leading whitespace). -/
def jparseVal (fuel : Nat) (s : List Char) : Option (JVal × List Char) :=
  match fuel with
  | 0 => none
  | fuel + 1 =>
    match s.dropWhile isJsonWs with
    | [] => none
    | c :: rest =>
      if c == '"' then
        match jparseString fuel rest with
        | some (body, r) => some (JVal.jstr body, r)
        | none => none
      else if c == '{' then jparseFields fuel rest true
      else if c == '[' then jparseItems fuel rest true
      else if c == 't' then
        match dropLit "rue".data rest with
        | some r => some (JVal.jbool true, r)
        | none => none
      else if c == 'f' then
        match dropLit "alse".data rest with
        | some r => some (JVal.jbool false, r)
        | none => none
      else if c == 'n' then
        match dropLit "ull".data rest with
        | some r => some (JVal.jnull, r)
        | none => none
      else if isJsonNumChar c then
        some (JVal.jnum, rest.dropWhile isJsonNumChar)
      else none

/-- The members of an object after `{` (`first` marks the position before
any member). -/
def jparseFields (fuel : Nat) (s : List Char) (first : Bool) :
    Option (JVal × List Char) :=
  match fuel with
  | 0 => none
  | fuel + 1 =>
    match s.dropWhile isJsonWs with
    | '}' :: r => if first then some (JVal.jobj [], r) else none
    | '"' :: rest =>
      match jparseString fuel rest with
      | none => none
      | some (key, r1) =>
        match r1.dropWhile isJsonWs with
        | ':' :: r2 =>
          match jparseVal fuel r2 with
          | none => none
          | some (v, r3) =>
            match r3.dropWhile isJsonWs with
            | ',' :: r4 =>
              match jparseFields fuel r4 false with
              | some (JVal.jobj fields, r5) =>
                some (JVal.jobj ((key, v) :: fields), r5)
              | _ => none
            | '}' :: r4 => some (JVal.jobj [(key, v)], r4)
            | _ => none
        | _ => none
    | _ => none

/-- The elements of an array after `[`. -/
def jparseItems (fuel : Nat) (s : List Char) (first : Bool) :
    Option (JVal × List Char) :=
  match fuel with
  | 0 => none
  | fuel + 1 =>
    match s.dropWhile isJsonWs with
    | ']' :: r => if first then some (JVal.jarr [], r) else none
    | s' =>
      match jparseVal fuel s' with
      | none => none
      | some (v, r1) =>
        match r1.dropWhile isJsonWs with
        | ',' :: r2 =>
          match jparseItems fuel r2 false with
          | some (JVal.jarr xs, r3) => some (JVal.jarr (v :: xs), r3)
          | _ => none
        | ']' :: r2 => some (JVal.jarr [v], r2)
        | _ => none

end

/-- `json.loads`: one value and nothing but trailing whitespace. -/
def jsonLoads (s : List Char) : Option JVal :=
  match jparseVal (s.length + 1) s with
  | none => none
  | some (v, rest) => if (rest.dropWhile isJsonWs).isEmpty then some v else none

/-- `dict.get("file", "")` over parsed fields: later duplicate keys win, as
in a Python dict built by `json.loads`. -/
def jobjGetFile (fields : List (List Char × JVal)) : Option JVal :=
  (fields.reverse.find? fun f => f.1 == 'f' :: 'i' :: 'l' :: 'e' :: []).map
    fun f => f.2

/-- The structural fallback of `PlayerJSExtractor.extract_url`: normalize
quotes, `json.loads`, read `file`; an empty or missing (or, with the
uncaught `AttributeError` on a non-string, failing) value reports no
URL. -/
def pjFallback (jsonStr : List Char) : Option (List Char) :=
  let cleaned := pjSub2 (pjSub1 jsonStr.length jsonStr).length
    (pjSub1 jsonStr.length jsonStr)
  match jsonLoads cleaned with
  | none => none
  | some (JVal.jobj fields) =>
    match jobjGetFile fields with
    | some (JVal.jstr v) => if v.isEmpty then none else some (normalizeUrl v)
    | _ => none
  | some _ => none

/-- `PlayerJSExtractor.extract_url`. -/
def pjExtract (html : List Char) : Option (List Char) :=
  match (match pjConfigSearch1 html with
         | some j => some j
         | none => pjConfigSearch2 html) with
  | none => none
  | some jsonStr =>
    match pjFileSearch jsonStr with
    | some v => some (normalizeUrl v)
    | none => pjFallback jsonStr

/-- A URL character as the claim's malformed-quoting example needs it:
not a quote of either kind and not a closing brace. -/
def pjPlain (c : Char) : Bool := !(c == '"' || c == '\'' || c == '}')

/-- A PlayerJS page whose single-quoted `file` value contains an apostrophe:
the value is `v1 ++ ' ++ v2`. -/
def pjMarkup (v1 v2 : List Char) : List Char :=
  "Playerjs(\x7b'file':'".data ++ (v1 ++ ("'".data ++ (v2 ++ "'\x7d)".data)))

/-- The config captured by the first pattern on `pjMarkup`. -/
def pjJson (v1 v2 : List Char) : List Char :=
  "\x7b'file':'".data ++ (v1 ++ ("'".data ++ (v2 ++ "'\x7d".data)))

theorem pjConfigSearch1_cons (c : Char) (rest : List Char) :
    pjConfigSearch1 (c :: rest) =
      match pjConfigMatchAt (c :: rest) with
      | some r => some r
      | none => pjConfigSearch1 rest := by
  rw [pjConfigSearch1.eq_def]

theorem pjFileSearch_cons (c : Char) (rest : List Char) :
    pjFileSearch (c :: rest) =
      match pjFileMatchAt (c :: rest) with
      | some r => some r
      | none => pjFileSearch rest := by
  rw [pjFileSearch.eq_def]

theorem pjPlain_facts (c : Char) (h : pjPlain c = true) :
    (c == '"') = false ∧ (c == '\'') = false ∧ (c == '}') = false := by
  rw [pjPlain] at h
  have h1 : (c == '"') = false := by
    by_contra hq
    rw [Bool.not_eq_false] at hq
    rw [hq] at h
    simp at h
  have h2 : (c == '\'') = false := by
    by_contra hq
    rw [Bool.not_eq_false] at hq
    rw [hq] at h
    simp at h
  have h3 : (c == '}') = false := by
    by_contra hq
    rw [Bool.not_eq_false] at hq
    rw [hq] at h
    simp at h
  exact ⟨h1, h2, h3⟩

theorem pjConfigMatchAt_markup (v1 v2 : List Char)
    (hv1 : ∀ c ∈ v1, pjPlain c = true) (hv2 : ∀ c ∈ v2, pjPlain c = true) :
    pjConfigMatchAt (pjMarkup v1 v2) = some (pjJson v1 v2) := by
  have hnb : ∀ c ∈ ('\'' :: 'f' :: 'i' :: 'l' :: 'e' :: '\'' :: ':' :: '\'' :: [])
      ++ (v1 ++ ('\'' :: (v2 ++ ['\'']))), (!(c == '}')) = true := by
    intro c hc
    rcases List.mem_append.mp hc with hc | hc
    · fin_cases hc <;> rfl
    · rcases List.mem_append.mp hc with hc | hc
      · rw [(pjPlain_facts c (hv1 c hc)).2.2]
        rfl
      · rcases List.mem_cons.mp hc with hc | hc
        · subst hc; rfl
        · rcases List.mem_append.mp hc with hc | hc
          · rw [(pjPlain_facts c (hv2 c hc)).2.2]
            rfl
          · rcases List.mem_cons.mp hc with hc | hc
            · subst hc; rfl
            · simp at hc
  have hregroup : ('\'' :: 'f' :: 'i' :: 'l' :: 'e' :: '\'' :: ':' :: '\''
        :: (v1 ++ ('\'' :: (v2 ++ '\'' :: '}' :: ')' :: []))))
      = (('\'' :: 'f' :: 'i' :: 'l' :: 'e' :: '\'' :: ':' :: '\'' :: [])
          ++ (v1 ++ ('\'' :: (v2 ++ ['\''])))) ++ '}' :: ')' :: [] := by
    simp [List.append_assoc]
  have hred : pjConfigMatchAt (pjMarkup v1 v2)
      = pjConfigBody ('\'' :: 'f' :: 'i' :: 'l' :: 'e' :: '\'' :: ':' :: '\''
          :: (v1 ++ ('\'' :: (v2 ++ '\'' :: '}' :: ')' :: [])))) := rfl
  rw [hred, hregroup, pjConfigBody.eq_def]
  rw [takeWhile_all_append _ _ _ hnb, dropWhile_all_append _ _ _ hnb]
  rw [show (('}' :: ')' :: []).takeWhile fun c => !(c == '}')) = [] from rfl]
  rw [show (('}' :: ')' :: []).dropWhile fun c => !(c == '}')) = '}' :: ')' :: []
    from rfl]
  simp only [List.append_nil]
  rw [if_neg (by simp)]
  rw [show dropLit ")".data ((')' :: []).dropWhile isPySpace) = some [] from rfl]
  rw [pjJson]
  simp [List.append_assoc]

theorem pjFileTail_json (v1 v2 : List Char)
    (hv1 : ∀ c ∈ v1, pjPlain c = true) (hne : v1 ≠ []) :
    pjFileTail (':' :: '\'' :: (v1 ++ ('\'' :: (v2 ++ '\'' :: '}' :: []))))
      = some v1 := by
  have hnq : ∀ c ∈ v1, (!(c == '"' || c == '\'')) = true := by
    intro c hc
    rw [(pjPlain_facts c (hv1 c hc)).1, (pjPlain_facts c (hv1 c hc)).2.1]
    rfl
  have hred : pjFileTail (':' :: '\'' :: (v1 ++ ('\'' :: (v2 ++ '\'' :: '}' :: []))))
      = pjCapture (v1 ++ ('\'' :: (v2 ++ '\'' :: '}' :: []))) := rfl
  rw [hred, pjCapture.eq_def]
  rw [takeWhile_all_append _ _ _ hnq, dropWhile_all_append _ _ _ hnq]
  rw [show (('\'' :: (v2 ++ '\'' :: '}' :: [])).takeWhile
    fun c => !(c == '"' || c == '\'')) = [] from by rw [List.takeWhile_cons]; rfl]
  rw [show (('\'' :: (v2 ++ '\'' :: '}' :: [])).dropWhile
    fun c => !(c == '"' || c == '\'')) = '\'' :: (v2 ++ '\'' :: '}' :: [])
    from by rw [List.dropWhile_cons]; rfl]
  simp only [List.append_nil]
  simp [List.isEmpty_iff, hne]

theorem pjFileMatchAt_json (v1 v2 : List Char)
    (hv1 : ∀ c ∈ v1, pjPlain c = true) (hne : v1 ≠ []) :
    pjFileMatchAt ('f' :: 'i' :: 'l' :: 'e' :: '\'' :: ':' :: '\''
      :: (v1 ++ ('\'' :: (v2 ++ '\'' :: '}' :: [])))) = some v1 := by
  have hred : pjFileMatchAt ('f' :: 'i' :: 'l' :: 'e' :: '\'' :: ':' :: '\''
        :: (v1 ++ ('\'' :: (v2 ++ '\'' :: '}' :: []))))
      = pjOrElse (pjFileTail (':' :: '\'' :: (v1 ++ ('\'' :: (v2 ++ '\'' :: '}' :: [])))))
          (fun _ => pjFileTail ('\'' :: ':' :: '\''
            :: (v1 ++ ('\'' :: (v2 ++ '\'' :: '}' :: []))))) := rfl
  rw [hred, pjFileTail_json v1 v2 hv1 hne]
  rfl

theorem pjConfigSearch1_markup (v1 v2 : List Char)
    (hv1 : ∀ c ∈ v1, pjPlain c = true) (hv2 : ∀ c ∈ v2, pjPlain c = true) :
    pjConfigSearch1 (pjMarkup v1 v2) = some (pjJson v1 v2) := by
  show pjConfigSearch1 ('P' :: ("layerjs(\x7b'file':'".data
    ++ (v1 ++ ("'".data ++ (v2 ++ "'\x7d)".data))))) = some (pjJson v1 v2)
  rw [pjConfigSearch1_cons]
  rw [show ('P' :: ("layerjs(\x7b'file':'".data
    ++ (v1 ++ ("'".data ++ (v2 ++ "'\x7d)".data))))) = pjMarkup v1 v2 from rfl]
  rw [pjConfigMatchAt_markup v1 v2 hv1 hv2]

theorem pjFileSearch_json (v1 v2 : List Char)
    (hv1 : ∀ c ∈ v1, pjPlain c = true) (hne : v1 ≠ []) :
    pjFileSearch (pjJson v1 v2) = some v1 := by
  rw [show pjJson v1 v2 = '{' :: '\'' :: 'f' :: 'i' :: 'l' :: 'e' :: '\'' :: ':'
    :: '\'' :: (v1 ++ ('\'' :: (v2 ++ '\'' :: '}' :: []))) from rfl]
  rw [pjFileSearch_cons]
  rw [show pjFileMatchAt ('{' :: '\'' :: 'f' :: 'i' :: 'l' :: 'e' :: '\'' :: ':'
    :: '\'' :: (v1 ++ ('\'' :: (v2 ++ '\'' :: '}' :: [])))) = none from rfl]
  simp only []
  rw [pjFileSearch_cons]
  rw [show pjFileMatchAt ('\'' :: 'f' :: 'i' :: 'l' :: 'e' :: '\'' :: ':'
    :: '\'' :: (v1 ++ ('\'' :: (v2 ++ '\'' :: '}' :: [])))) = none from rfl]
  simp only []
  rw [pjFileSearch_cons, pjFileMatchAt_json v1 v2 hv1 hne]

/-- C6 (counterexample): on the config `{'file':'http://x/it's.m3u8'}` the
extractor returns `http://x/it` — the capture stops at the apostrophe inside
the value — not the full `http://x/it's.m3u8`. -/
theorem playerjs_apostrophe_counterexample :
    pjExtract "Playerjs(\x7b'file':'http://x/it's.m3u8'\x7d)".data
        = some "http://x/it".data
      ∧ pjExtract "Playerjs(\x7b'file':'http://x/it's.m3u8'\x7d)".data
          ≠ some "http://x/it's.m3u8".data := by
  exact ⟨by decide, by decide⟩

/-- C6 (amended): for every single-quoted `file` value `v1 ++ ' ++ v2` whose
pieces contain no quote or brace characters (`v1` non-empty), the extractor
answers via the regex-first path — the config capture and the direct `file`
capture both succeed, so the structural quote-normalization fallback is never
consulted — and the recovered value is `v1`, the prefix of the stored value
up to the first apostrophe, normalized. -/
theorem playerjs_apostrophe_primary (v1 v2 : List Char)
    (hv1 : ∀ c ∈ v1, pjPlain c = true) (hv2 : ∀ c ∈ v2, pjPlain c = true)
    (hne : v1 ≠ []) :
    pjConfigSearch1 (pjMarkup v1 v2) = some (pjJson v1 v2)
      ∧ pjFileSearch (pjJson v1 v2) = some v1
      ∧ pjExtract (pjMarkup v1 v2) = some (normalizeUrl v1) := by
  refine ⟨pjConfigSearch1_markup v1 v2 hv1 hv2,
    pjFileSearch_json v1 v2 hv1 hne, ?_⟩
  rw [pjExtract.eq_def, pjConfigSearch1_markup v1 v2 hv1 hv2]
  simp only []
  rw [pjFileSearch_json v1 v2 hv1 hne]

/-- Witness for `playerjs_apostrophe_primary`: the spec's
`http://x/it's.m3u8` example (`v1 = "http://x/it"`, `v2 = "s.m3u8"`). -/
theorem playerjs_apostrophe_primary_witness :
    pjConfigSearch1 (pjMarkup "http://x/it".data "s.m3u8".data)
        = some (pjJson "http://x/it".data "s.m3u8".data)
      ∧ pjFileSearch (pjJson "http://x/it".data "s.m3u8".data)
          = some "http://x/it".data
      ∧ pjExtract (pjMarkup "http://x/it".data "s.m3u8".data)
          = some (normalizeUrl "http://x/it".data) :=
  playerjs_apostrophe_primary "http://x/it".data "s.m3u8".data (by decide)
    (by decide) (by decide)

/-! ## Extractor chain
(`extraction/extractor_chain.py`, `extraction/m3u8_extractor_refactored.py`) -/

/-- The capability set of a video extractor (`BaseVideoExtractor`). -/
structure VExtractor where
  canHandle : List Char → Bool
  extractUrl : List Char → Option (List Char)

/-- The shared loop of `ExtractorChain.extract` and
`M3U8Extractor._extract_from_html`: skip extractors whose `can_handle` is
false, return the first truthy (non-`None`, non-empty) extracted URL,
`None` when the list is exhausted. -/
def chainExtract : List VExtractor → List Char → Option (List Char)
  | [], _ => none
  | e :: rest, html =>
    if e.canHandle html then
      match e.extractUrl html with
      | some url => if url.isEmpty then chainExtract rest html else some url
      | none => chainExtract rest html
    else chainExtract rest html

/-- The TortugaCore extractor as a chain entry. -/
def tortugaVE : VExtractor := ⟨tortugaCanHandle, tortugaExtract⟩

/-- The PlayerJS extractor as a chain entry. -/
def playerjsVE : VExtractor := ⟨pjCanHandle, pjExtract⟩

/-- `M3U8Extractor.__init__`'s default extractor list: TortugaCore (newer
player) strictly before PlayerJS (fallback). -/
def m3u8DefaultExtractors : List VExtractor := [tortugaVE, playerjsVE]

/-- `M3U8Extractor._extract_from_html` with the default chain. -/
def m3u8ExtractFromHtml (html : List Char) : Option (List Char) :=
  chainExtract m3u8DefaultExtractors html

/-- C7: the default chain consults TortugaCore strictly before PlayerJS and
returns the first non-empty extracted URL; when neither recognizer accepts
the markup, or every recognized extractor fails to extract, the overall
result is `none` (and, the functions being total, no exception is
raised). -/
theorem extractor_chain_spec :
    (∀ (html u : List Char), tortugaCanHandle html = true →
        tortugaExtract html = some u → u ≠ [] →
          m3u8ExtractFromHtml html = some u)
    ∧ (∀ (html u : List Char),
        (tortugaCanHandle html = false ∨ tortugaExtract html = none) →
          pjCanHandle html = true → pjExtract html = some u → u ≠ [] →
            m3u8ExtractFromHtml html = some u)
    ∧ (∀ html : List Char, tortugaCanHandle html = false →
        pjCanHandle html = false → m3u8ExtractFromHtml html = none)
    ∧ (∀ html : List Char, tortugaExtract html = none → pjExtract html = none →
        m3u8ExtractFromHtml html = none) := by
  refine ⟨fun html u h1 h2 h3 => ?_, fun html u h1 h2 h3 h4 => ?_,
    fun html h1 h2 => ?_, fun html h1 h2 => ?_⟩
  · rw [m3u8ExtractFromHtml, m3u8DefaultExtractors, chainExtract]
    rw [show tortugaVE.canHandle = tortugaCanHandle from rfl, h1]
    rw [show tortugaVE.extractUrl = tortugaExtract from rfl, h2]
    simp [List.isEmpty_iff, h3]
  · rw [m3u8ExtractFromHtml, m3u8DefaultExtractors, chainExtract]
    rw [show tortugaVE.canHandle = tortugaCanHandle from rfl,
      show tortugaVE.extractUrl = tortugaExtract from rfl]
    have hrest : chainExtract [playerjsVE] html = some u := by
      rw [chainExtract]
      rw [show playerjsVE.canHandle = pjCanHandle from rfl, h2]
      rw [show playerjsVE.extractUrl = pjExtract from rfl, h3]
      simp [List.isEmpty_iff, h4]
    rcases h1 with h1 | h1
    · rw [h1]
      simp only [Bool.false_eq_true, if_false]
      exact hrest
    · rw [h1]
      rcases hc : tortugaCanHandle html <;> simp [hc, hrest]
  · rw [m3u8ExtractFromHtml, m3u8DefaultExtractors, chainExtract]
    rw [show tortugaVE.canHandle = tortugaCanHandle from rfl, h1]
    simp only [Bool.false_eq_true, if_false]
    rw [chainExtract]
    rw [show playerjsVE.canHandle = pjCanHandle from rfl, h2]
    simp only [Bool.false_eq_true, if_false]
    rfl
  · rw [m3u8ExtractFromHtml, m3u8DefaultExtractors, chainExtract]
    rw [show tortugaVE.extractUrl = tortugaExtract from rfl, h1]
    have hrest : chainExtract [playerjsVE] html = none := by
      rw [chainExtract]
      rw [show playerjsVE.extractUrl = pjExtract from rfl, h2]
      rcases hc : playerjsVE.canHandle html <;> simp [hc, chainExtract]
    rcases hc : tortugaVE.canHandle html <;> simp [hc, hrest]

/-- Witness for `extractor_chain_spec`: a TortugaCore page resolved by the
first extractor, a page neither extractor recognizes, and a page both
recognize but neither can extract from. -/
theorem extractor_chain_spec_witness :
    m3u8ExtractFromHtml (tortugaMarkup "LmI=".data) = some "b.".data
      ∧ m3u8ExtractFromHtml "plain page".data = none
      ∧ m3u8ExtractFromHtml "TortugaCore and Playerjs with no config".data = none :=
  ⟨extractor_chain_spec.1 (tortugaMarkup "LmI=".data) "b.".data (by decide)
     (by decide) (by decide),
   extractor_chain_spec.2.2.1 "plain page".data (by decide) (by decide),
   extractor_chain_spec.2.2.2 "TortugaCore and Playerjs with no config".data
     (by decide) (by decide)⟩

end Aniloader
